import Mathlib

/-!
# Verification of the ActuallyOpenSnow ingestion pipeline

A shallow embedding, in Lean 4, of the core ingestion/blending logic of the
ActuallyOpenSnow repository:

* `weather/parsing/grib2_parser.py` — de-accumulation, wind speed/gusts,
  hourly-data normalization (`de_accumulate`, `compute_wind_speed`,
  `estimate_wind_gusts`, `build_hourly_data`);
* `engine/services/blend_service.py` — weighted blend and ensemble ranges
  (`compute_blend`, `compute_ensemble_ranges`);
* `weather/clients/herbie_client.py` — chunked extraction
  (`extract_all_hours_batch`, `_extract_all_hours_chunked`,
  `_extract_all_hours_single`);
* `engine/workers/model_worker.py` — the run state machine
  (`get_stale_timeout`, `process_model_run`);
* `engine/scheduler.py` — candidate-run fallback (`process_with_fallback`).

Modelling conventions:

* Python floats are modelled as rationals (`ℚ`); `math.sqrt` is passed as an
  explicit function parameter where the source uses it, since none of the
  verified properties depend on its values.
* Python `dict`s (which preserve insertion order) are modelled as association
  lists `List (key × value)`; `d.get(k)` / `k in d` become `List.lookup`.
* Nullable cells (`float | None`) are `Option ℚ`.
* Raised exceptions become `Except` values; `ValueError` is distinguished from
  other exception classes because `process_with_fallback` catches exactly
  `ValueError`.
-/

namespace SnowSpec

/-! ## `weather/parsing/grib2_parser.py` : `de_accumulate`

The source iterates with a running accumulator `prev` starting at `0.0`,
updated only on non-null entries.  Its `i == 0` branch appends `max(0, val)`
and the later branches append `max(0, val - prev)`; since `prev = 0.0`
initially, both are `max 0 (val - prev)`. -/

/-- The loop of `de_accumulate`: `prev` is the last non-null raw value seen
(initially `0.0`); a null input yields a null output and leaves `prev`
untouched. -/
def de_accumulate_go (prev : ℚ) : List (Option ℚ) → List (Option ℚ)
  | [] => []
  | none :: rest => none :: de_accumulate_go prev rest
  | some v :: rest => some (max 0 (v - prev)) :: de_accumulate_go v rest

/-- Embeds `de_accumulate(values)`.  The source's `if not values: return []`
short-circuit is subsumed by the loop on the empty list. -/
def de_accumulate (values : List (Option ℚ)) : List (Option ℚ) :=
  de_accumulate_go 0 values

/-! ## `engine/services/blend_service.py`

Forecast dicts are association lists keyed by model id in insertion order
(Python dicts preserve insertion order, and `compute_blend` takes the first
inserted forecast as its template). -/

/-- The forecast-data dict handed to `compute_blend` /
`compute_ensemble_ranges`: `times_utc`, `hourly_data`, `hourly_units` and the
optional `enhanced_hourly_data` sub-dict. -/
structure ForecastData where
  times_utc : List String
  hourly_data : List (String × List (Option ℚ))
  hourly_units : List (String × String)
  enhanced_hourly_data : Option (List (String × List (Option ℚ)))
  deriving Repr, DecidableEq

/-- `model_weights.get(model_id, 1.0)`. -/
def weightOf (weights : List (String × ℚ)) (model_id : String) : ℚ :=
  (weights.lookup model_id).getD 1

/-- `fdata["hourly_data"]`. -/
def hourlyOf (fd : ForecastData) : List (String × List (Option ℚ)) :=
  fd.hourly_data

/-- `fdata.get("enhanced_hourly_data") or {}` — both an absent key and a
`None`/empty value give the empty dict. -/
def enhancedOf (fd : ForecastData) : List (String × List (Option ℚ)) :=
  fd.enhanced_hourly_data.getD []

/-- The inner model loop of `compute_blend` for one variable at one hour:
skip a model whose dict (selected by `get_data`) lacks the variable, skip it
when `hour_idx` is past the end of its series, skip a `None` cell, and
otherwise add `val * w` to `weighted_sum` and `w` to `total_weight`. -/
def blendAccum (get_data : ForecastData → List (String × List (Option ℚ)))
    (weights : List (String × ℚ)) (var : String) (hour_idx : Nat)
    (forecasts : List (String × ForecastData)) : ℚ × ℚ :=
  forecasts.foldl
    (fun acc mf =>
      match (get_data mf.2).lookup var with
      | none => acc
      | some values =>
          match values[hour_idx]? with
          | none => acc
          | some none => acc
          | some (some val) =>
              (acc.1 + val * weightOf weights mf.1,
               acc.2 + weightOf weights mf.1))
    (0, 0)

/-- `min(len(f["times_utc"]) for f in forecasts.values())` — Python's `min`
over a non-empty sequence, i.e. a left fold of `min` from the first element. -/
def min_hours : List (String × ForecastData) → Nat
  | [] => 0
  | mf :: rest =>
      rest.foldl (fun acc x => min acc x.2.times_utc.length)
        mf.2.times_utc.length

/-- The two derived variables blended by the second loop of `compute_blend`. -/
def ENHANCED_VARS : List String := ["enhanced_snowfall", "rain"]

/-- The dict returned by `compute_blend`. -/
structure BlendOutput where
  times_utc : List String
  hourly_data : List (String × List (Option ℚ))
  hourly_units : List (String × String)
  enhanced_hourly_data : List (String × List ℚ)
  enhanced_hourly_units : List (String × String)
  deriving Repr, DecidableEq

/-- The non-`None` cell a variable-carrying (non-enhanced) blend series
holds at one hour: `weighted_sum / total_weight` when `total_weight > 0`,
`None` otherwise. -/
def blendCellValue (weights : List (String × ℚ)) (var : String)
    (hour_idx : Nat) (fs : List (String × ForecastData)) : Option ℚ :=
  let acc := blendAccum hourlyOf weights var hour_idx fs
  if 0 < acc.2 then some (acc.1 / acc.2) else none

/-- One hour of an enhanced blend series: `0.0` replaces `None` when
`total_weight` is zero. -/
def enhancedCellValue (weights : List (String × ℚ)) (var : String)
    (hour_idx : Nat) (fs : List (String × ForecastData)) : ℚ :=
  let acc := blendAccum enhancedOf weights var hour_idx fs
  if 0 < acc.2 then acc.1 / acc.2 else 0

/-- The dict `compute_blend` builds on a non-empty input
`(m0, first_data) :: rest`. -/
def blend_result (m0 : String) (first_data : ForecastData)
    (rest : List (String × ForecastData)) (weights : List (String × ℚ)) :
    BlendOutput :=
  let fs := (m0, first_data) :: rest
  let vars := first_data.hourly_data.map Prod.fst
  let mh := min_hours fs
  { times_utc := first_data.times_utc.take mh
    hourly_data := vars.map (fun var =>
      (var, (List.range mh).map (fun hour_idx =>
        blendCellValue weights var hour_idx fs)))
    hourly_units := first_data.hourly_units
    enhanced_hourly_data := ENHANCED_VARS.map (fun var =>
      (var, (List.range mh).map (fun hour_idx =>
        enhancedCellValue weights var hour_idx fs)))
    enhanced_hourly_units := [("enhanced_snowfall", "cm"), ("rain", "mm")] }

/-- Embeds `compute_blend(forecasts, weights)`.  The `weights or
BLEND_WEIGHTS` default is environment configuration and is passed
explicitly here.  Raises `ValueError("No forecasts to blend")` on an empty
input; otherwise uses the first forecast as the template for the variable
set, the units dict and the (truncated) time axis. -/
def compute_blend (forecasts : List (String × ForecastData))
    (weights : List (String × ℚ)) : Except String BlendOutput :=
  match forecasts with
  | [] => .error "No forecasts to blend"
  | (m0, first_data) :: rest => .ok (blend_result m0 first_data rest weights)

/-- Claim-side view of one model's contribution at `(var, hour_idx)` in the
raw `hourly_data` loop: `some v` exactly when the model reports `var` and
holds a non-null value at that hour. -/
def contributesAt (fd : ForecastData) (var : String) (hour_idx : Nat) :
    Option ℚ :=
  match fd.hourly_data.lookup var with
  | none => none
  | some vs =>
      match vs[hour_idx]? with
      | some (some v) => some v
      | _ => none

/-- Claim-side list of `(model, value)` contributors at `(var, hour_idx)`. -/
def contributors (var : String) (hour_idx : Nat)
    (fs : List (String × ForecastData)) : List (String × ℚ) :=
  fs.filterMap (fun mf => (contributesAt mf.2 var hour_idx).map (fun v => (mf.1, v)))

/-- Claim-side total weight of the contributors at `(var, hour_idx)`. -/
def totalWeightAt (weights : List (String × ℚ)) (var : String)
    (hour_idx : Nat) (fs : List (String × ForecastData)) : ℚ :=
  ((contributors var hour_idx fs).map (fun p => weightOf weights p.1)).sum

/-- Claim-side weighted sum of the contributors at `(var, hour_idx)`. -/
def weightedSumAt (weights : List (String × ℚ)) (var : String)
    (hour_idx : Nat) (fs : List (String × ForecastData)) : ℚ :=
  ((contributors var hour_idx fs).map (fun p => p.2 * weightOf weights p.1)).sum

/-- Claim-side accessor: the cell of blended output `out` for variable
`var` at hour `h` (`none` when the variable or hour is absent). -/
def blendedCell (out : BlendOutput) (var : String) (h : Nat) :
    Option (Option ℚ) :=
  match out.hourly_data.lookup var with
  | some s => s[h]?
  | none => none

/-- Claim-side accessor for the enhanced series of blended output. -/
def blendedEnhancedCell (out : BlendOutput) (var : String) (h : Nat) :
    Option ℚ :=
  match out.enhanced_hourly_data.lookup var with
  | some s => s[h]?
  | none => none

/-- Default `variables` of `compute_ensemble_ranges` (used when the caller
passes `None`). -/
def DEFAULT_RANGE_VARIABLES : List String :=
  ["enhanced_snowfall", "temperature_2m", "precipitation"]

/-- The raw-series fallback branch of the gather loop in
`compute_ensemble_ranges`: `var in fdata.get("hourly_data", {}) and hour_idx <
len(...)`. -/
def rawHourValue (var : String) (hour_idx : Nat) (fd : ForecastData) : Option ℚ :=
  match fd.hourly_data.lookup var with
  | some vs => if hour_idx < vs.length then vs.getD hour_idx none else none
  | none => none

/-- One model's contribution to an hour's value list: the enhanced series is
preferred when it has the variable and is long enough (a `None` cell there
contributes nothing and does not fall back); otherwise the raw hourly series. -/
def gatherHourValue (var : String) (hour_idx : Nat) (fd : ForecastData) : Option ℚ :=
  match (enhancedOf fd).lookup var with
  | some evs =>
      if hour_idx < evs.length then evs.getD hour_idx none
      else rawHourValue var hour_idx fd
  | none => rawHourValue var hour_idx fd

/-- `hour_values` for one variable and hour, in model-iteration order. -/
def hour_values (forecasts : List (String × ForecastData)) (var : String)
    (hour_idx : Nat) : List ℚ :=
  forecasts.filterMap (fun mf => gatherHourValue var hour_idx mf.2)

/-- `max(0, int(n * 0.1))`: for the value-list lengths arising here the float
product truncates exactly like the rational floor `n / 10`. -/
def p10_index (n : Nat) : Nat := n / 10

/-- `min(n - 1, int(n * 0.9))`, with the float truncation again embedded as
the exact floor `9 * n / 10`. -/
def p90_index (n : Nat) : Nat := min (n - 1) (9 * n / 10)

/-- One hour of the range computation for one variable: sort the gathered
values ascending (Python's `sorted`, embedded as insertion sort — both
produce the unique non-decreasing permutation) and pick the order
statistics, or `(0.0, 0.0)` when no value contributed. -/
def ensemble_pair (ensemble_forecasts : List (String × ForecastData))
    (var : String) (hour_idx : Nat) : ℚ × ℚ :=
  let hv := hour_values ensemble_forecasts var hour_idx
  if hv.isEmpty then ((0 : ℚ), (0 : ℚ))
  else
    let sorted_vals := hv.insertionSort (· ≤ ·)
    let n := sorted_vals.length
    (sorted_vals.getD (p10_index n) 0, sorted_vals.getD (p90_index n) 0)

/-- One variable's `{p10: [...], p90: [...]}` entry: the per-hour pairs
unzipped into the two series. -/
def ensemble_entry (ensemble_forecasts : List (String × ForecastData))
    (var : String) : List ℚ × List ℚ :=
  let pairs := (List.range (min_hours ensemble_forecasts)).map
    (ensemble_pair ensemble_forecasts var)
  (pairs.map Prod.fst, pairs.map Prod.snd)

/-- Embeds `compute_ensemble_ranges(ensemble_forecasts, variables)`; the
result maps each requested variable to its `(p10, p90)` series pair, and an
empty forecast dict returns the empty dict. -/
def compute_ensemble_ranges (ensemble_forecasts : List (String × ForecastData))
    (vars : List String) : List (String × (List ℚ × List ℚ)) :=
  match ensemble_forecasts with
  | [] => []
  | _ :: _ =>
      vars.map (fun var => (var, ensemble_entry ensemble_forecasts var))

/-- Claim-side accessor: the `(p10, p90)` pair of a ranges dict for one
variable at one hour. -/
def rangeCell (ranges : List (String × (List ℚ × List ℚ))) (var : String)
    (h : Nat) : Option (ℚ × ℚ) :=
  match ranges.lookup var with
  | some pr =>
      match pr.1[h]?, pr.2[h]? with
      | some a, some b => some (a, b)
      | _, _ => none
  | none => none

/-! ## `weather/parsing/grib2_parser.py` : normalization -/

/-- One raw per-hour sample dict as produced by the extraction pipeline; an
absent key and a `None` value both read back as `None` through `dict.get`. -/
structure RawPoint where
  temperature : Option ℚ := none
  precipitation : Option ℚ := none
  snowfall : Option ℚ := none
  wind_u : Option ℚ := none
  wind_v : Option ℚ := none
  wind_gusts : Option ℚ := none
  freezing_level : Option ℚ := none
  deriving Repr, DecidableEq

instance : Inhabited RawPoint := ⟨{}⟩

/-- Embeds `compute_wind_speed(u_values, v_values)` (m/s → km/h via `× 3.6`).
The source raises `ValueError` on a length mismatch and then zips; its only
caller maps both component lists off the same point list, so the lengths
always agree and Python's truncating `zip` is `zipWith`.  `math.sqrt` is the
explicit `sqrtQ` parameter. -/
def compute_wind_speed (sqrtQ : ℚ → ℚ)
    (u_values v_values : List (Option ℚ)) : List (Option ℚ) :=
  List.zipWith
    (fun u v =>
      match u, v with
      | some u, some v => some (sqrtQ (u * u + v * v) * 3.6)
      | _, _ => none)
    u_values v_values

/-- Embeds `estimate_wind_gusts(wind_speed_kmh, gust_values, gust_factor)`:
return the direct gust list verbatim when it is given and matches the speed
list's length; otherwise scale the wind speed by `gust_factor`. -/
def estimate_wind_gusts (wind_speed_kmh : List (Option ℚ))
    (gust_values : Option (List (Option ℚ))) (gust_factor : ℚ) :
    List (Option ℚ) :=
  match gust_values with
  | some gv =>
      if gv.length = wind_speed_kmh.length then gv
      else wind_speed_kmh.map (fun s => s.map (· * gust_factor))
  | none => wind_speed_kmh.map (fun s => s.map (· * gust_factor))

/-- The ECMWF model family (`is_ecmwf` checks in `build_hourly_data`). -/
def ECMWF_MODELS : List String := ["ifs", "aifs", "ecmwf_ens"]

/-- Embeds `build_hourly_data(extracted_points, model_id)`; returns the
six-key `(hourly_data, hourly_units)` pair. -/
def build_hourly_data (sqrtQ : ℚ → ℚ) (extracted_points : List RawPoint)
    (model_id : String) :
    List (String × List (Option ℚ)) × List (String × String) :=
  if extracted_points.isEmpty then ([], [])
  else
    let temps := extracted_points.map (·.temperature)
    let precip_accum0 := extracted_points.map (·.precipitation)
    let snow_accum0 := extracted_points.map (·.snowfall)
    let wind_u := extracted_points.map (·.wind_u)
    let wind_v := extracted_points.map (·.wind_v)
    let raw_gusts : List (Option ℚ) := extracted_points.map (·.wind_gusts)
    let freezing := extracted_points.map (·.freezing_level)
    let precip_accum :=
      if model_id ∈ ECMWF_MODELS then
        precip_accum0.map (fun p => p.map (· * 1000))
      else precip_accum0
    let snow_accum :=
      if model_id ∈ ECMWF_MODELS then
        snow_accum0.map (fun s => s.map (· * 1000))
      else snow_accum0
    let precip_hourly := de_accumulate precip_accum
    let snow_hourly := de_accumulate snow_accum
    let wind_speed := compute_wind_speed sqrtQ wind_u wind_v
    let gusts :=
      if model_id ∈ ECMWF_MODELS ∧ ∀ g ∈ raw_gusts, g = none then
        estimate_wind_gusts wind_speed none 1.5
      else
        let gusts_kmh := raw_gusts.map (fun g => g.map (· * 3.6))
        estimate_wind_gusts wind_speed (some gusts_kmh) 1.5
    let snow_cm := snow_hourly.map (fun s => s.map (· * 100))
    let temps_c := temps.map (fun t => t.map (· - 273.15))
    ([("temperature_2m", temps_c),
      ("wind_speed_10m", wind_speed),
      ("wind_gusts_10m", gusts),
      ("snowfall", snow_cm),
      ("precipitation", precip_hourly),
      ("freezing_level_height", freezing)],
     [("temperature_2m", "C"),
      ("wind_speed_10m", "kmh"),
      ("wind_gusts_10m", "kmh"),
      ("snowfall", "cm"),
      ("precipitation", "mm"),
      ("freezing_level_height", "m")])

/-! ## `weather/clients/herbie_client.py` : chunked extraction

The GridSource boundary is a black box (spec §6): `avail f` says whether the
grid for hour offset `f` exists (`h_obj.grib is not None`), and `sample f` is
the per-point row list extracted for offset `f`.  For a fixed per-offset
availability, the value sampled at an offset is a function of the offset
alone, which is all claim C8 fixes.  The model id, run time and concurrency
cap are absorbed into these two functions since they are constant across one
`extract_all_hours_batch` call. -/

/-- `FASTHERBIE_CHUNK_SIZE`. -/
def FASTHERBIE_CHUNK_SIZE : Nat := 48

/-- The `{fxx: [point rows]}` result dict, read through lookup. -/
def FxxDict := Nat → Option (List RawPoint)

/-- `all_results[fxx] = point_results` — a single dict-key store. -/
def dictInsert (d : FxxDict) (f : Nat) (v : List RawPoint) : FxxDict :=
  fun k => if k = f then some v else d k

/-- `all_results.update(results)` — keys of `d2` win. -/
def dictUpdate (d1 d2 : FxxDict) : FxxDict :=
  fun k => match d2 k with
  | some v => some v
  | none => d1 k

/-- Embeds `_extract_all_hours_single(model_id, run_dt, fxx_range, points,
max_concurrent)`: keep the requested offsets whose grib exists (in
`fh.objects` order, i.e. request order), return `([], {})` when none are
available, otherwise build the per-offset dict and return the available list
**sorted ascending** (`return sorted(available_fxx), all_results`).  Python's
`sorted` is embedded as insertion sort. -/
def extract_all_hours_single (avail : Nat → Bool)
    (sample : Nat → List RawPoint) (fxx_range : List Nat) :
    List Nat × FxxDict :=
  let available_fxx := fxx_range.filter (fun f => avail f)
  if available_fxx.isEmpty then ([], fun _ => none)
  else
    (available_fxx.insertionSort (· ≤ ·),
     available_fxx.foldl (fun d f => dictInsert d f (sample f)) (fun _ => none))

/-- Embeds `_extract_all_hours_chunked`: consecutive slices of at most
`FASTHERBIE_CHUNK_SIZE` offsets, processed in request order;
`all_available.extend(avail)` and `all_results.update(results)` per chunk. -/
def extract_all_hours_chunked (avail : Nat → Bool)
    (sample : Nat → List RawPoint) (fxx_range : List Nat) :
    List Nat × FxxDict :=
  match fxx_range with
  | [] => ([], fun _ => none)
  | f :: rest =>
      let chunk_out :=
        extract_all_hours_single avail sample ((f :: rest).take FASTHERBIE_CHUNK_SIZE)
      let rest_out :=
        extract_all_hours_chunked avail sample ((f :: rest).drop FASTHERBIE_CHUNK_SIZE)
      (chunk_out.1 ++ rest_out.1, dictUpdate chunk_out.2 rest_out.2)
  termination_by fxx_range.length
  decreasing_by
    simp only [FASTHERBIE_CHUNK_SIZE, List.length_drop, List.length_cons]
    omega

/-- Embeds `extract_all_hours_batch`: chunk only when the request exceeds
`FASTHERBIE_CHUNK_SIZE` hours. -/
def extract_all_hours_batch (avail : Nat → Bool)
    (sample : Nat → List RawPoint) (fxx_range : List Nat) :
    List Nat × FxxDict :=
  if FASTHERBIE_CHUNK_SIZE < fxx_range.length then
    extract_all_hours_chunked avail sample fxx_range
  else
    extract_all_hours_single avail sample fxx_range

/-! ## `engine/workers/model_worker.py` : the run state machine

Database rows become records; each `session.commit()` that touches the
`ModelRun` row appends a snapshot to a commit trace, so "marked failed, then
re-claimed" is observable.  Timestamps are rational epoch seconds: `now` is
the wall clock at the start of the call and `dur` the processing duration
(`time.time() - start_time`), making `datetime.now()` at the end of the call
`now + dur`.  Raised exceptions are `PyErr` values: everything this function
raises itself is a `ValueError`; an extraction failure re-raises whatever
class the client raised. -/

/-- `ModelRun.status` values. -/
inductive RunStatus
  | pending
  | processing
  | completed
  | failed
  deriving Repr, DecidableEq

/-- The `ModelRun` row. -/
structure ModelRunRow where
  status : RunStatus
  started_at : Option ℚ := none
  completed_at : Option ℚ := none
  resorts_processed : Option Nat := none
  error : Option String := none
  deriving Repr, DecidableEq

/-- The `JobHistory` row. -/
structure JobHistoryRow where
  job_type : String
  model_id : String
  status : String
  started_at : Option ℚ := none
  completed_at : Option ℚ := none
  duration_seconds : Option ℚ := none
  resorts_processed : Option Nat := none
  error : Option String := none
  deriving Repr, DecidableEq

/-- A `Resort` row (the fields this worker reads). -/
structure Resort where
  slug : String
  summit_elevation_m : ℚ
  base_elevation_m : ℚ
  deriving Repr, DecidableEq

/-- Python exception classes, split into `ValueError` (what
`process_with_fallback` catches) and everything else. -/
inductive PyErr
  | valueError (msg : String)
  | other (msg : String)
  deriving Repr, DecidableEq

/-- `str(e)`. -/
def PyErr.message : PyErr → String
  | .valueError m => m
  | .other m => m

/-- `STALE_LOCK_FALLBACK = 2500` seconds. -/
def STALE_LOCK_FALLBACK : ℚ := 2500

/-- The `duration_seconds` values the SQL `avg` of `get_stale_timeout` runs
over: completed `model_run` rows for this model, NULL durations skipped. -/
def staleDurations (history : List JobHistoryRow) (model_id : String) : List ℚ :=
  history.filterMap (fun j =>
    if j.model_id = model_id ∧ j.status = "completed" ∧ j.job_type = "model_run"
    then j.duration_seconds else none)

/-- Embeds `get_stale_timeout(session, model_id)`.  The SQL `avg` is the
mean of `staleDurations` (NULL when that list is empty); Python's
`if avg_duration and avg_duration > 0` then selects
`max(avg * 2, STALE_LOCK_FALLBACK)` exactly when the average exists and is
positive. -/
def get_stale_timeout (history : List JobHistoryRow) (model_id : String) : ℚ :=
  let durations := staleDurations history model_id
  if durations.isEmpty then STALE_LOCK_FALLBACK
  else
    let avg := durations.sum / durations.length
    if 0 < avg then max (avg * 2) STALE_LOCK_FALLBACK else STALE_LOCK_FALLBACK

/-- The environment `process_model_run` reads beside the job rows: the
`Resort` table, the outcome of `herbie_client.extract_all_hours_batch`
(its `(available_fxx, results)` value, or the exception it raised), and the
square root used by wind normalization. -/
structure WorkerEnv where
  resorts : List Resort
  extraction : Except PyErr (List Nat × (Nat → List RawPoint))
  sqrtQ : ℚ → ℚ

/-- `ValueError("No resorts found in database")`. -/
def no_resorts_msg : String := "No resorts found in database"

/-- `ValueError(f"No forecast hours extracted for {model_id}")`. -/
def no_hours_msg (model_id : String) : String :=
  "No forecast hours extracted for " ++ model_id

/-- `ValueError(f"All forecast data null for {model_id} run {run_dt} — ...")`. -/
def all_null_msg (model_id run_dt : String) : String :=
  "All forecast data null for " ++ model_id ++ " run " ++ run_dt ++
    " — extraction produced no valid data for any resort"

/-- The stale-lock reset error text (`f"Stale lock reset after
{elapsed:.0f}s"`; the float formatting of `elapsed` is abstracted to
`toString`). -/
def stale_lock_msg (elapsed : ℚ) : String :=
  "Stale lock reset after " ++ toString elapsed ++ "s"

/-- `"Stale lock reset (no started_at)"`. -/
def stale_lock_no_start_msg : String := "Stale lock reset (no started_at)"

/-- The per-hour row list for resort index `i`:
`[all_fxx_results[fxx][i] for fxx in available_fxx]`.  The source indexes
`batch_results[i]` directly; the client returns one row per requested point
for every available offset, so the default row is never consulted in a
well-formed run. -/
def resort_extracted (avail : List Nat) (res : Nat → List RawPoint)
    (i : Nat) : List RawPoint :=
  avail.map (fun f => (res f).getD i default)

/-- The all-null check on one resort's normalized data: `all(v is None or
(isinstance(v, (list, tuple)) and all(x is None for x in v)) for v in
hourly_data.values())`.  Values here are always tuples, so only the second
disjunct bites. -/
def hourly_all_null (hourly : List (String × List (Option ℚ))) : Bool :=
  hourly.all (fun p => p.2.all (·.isNone))

/-- Whether resort index `i` counts toward `resorts_with_valid_data`: a
non-empty extracted list whose normalized output is not entirely null. -/
def resort_valid (sqrtQ : ℚ → ℚ) (model_id : String) (avail : List Nat)
    (res : Nat → List RawPoint) (i : Nat) : Bool :=
  let extracted := resort_extracted avail res i
  if extracted.isEmpty then false
  else !hourly_all_null (build_hourly_data sqrtQ extracted model_id).1

/-- `resorts_with_valid_data` (equal to `resorts_processed`: the loop
increments both together and nothing in the embedded loop body raises). -/
def count_valid (env : WorkerEnv) (model_id : String) (avail : List Nat)
    (res : Nat → List RawPoint) : Nat :=
  ((List.range env.resorts.length).filter
    (fun i => resort_valid env.sqrtQ model_id avail res i)).length

/-- The `(slug, elev_type)` upserts performed for resort `i`: both elevation
types, in summit-then-base order, provided the resort is processed and its
precipitation and temperature series are non-empty (`if precip and temp`). -/
def resort_upserts (sqrtQ : ℚ → ℚ) (model_id : String) (avail : List Nat)
    (res : Nat → List RawPoint) (i : Nat) (r : Resort) :
    List (String × String) :=
  if resort_valid sqrtQ model_id avail res i then
    let hourly := (build_hourly_data sqrtQ (resort_extracted avail res i) model_id).1
    let precip := ((hourly.lookup "precipitation").getD [])
    let temp := ((hourly.lookup "temperature_2m").getD [])
    if precip.isEmpty ∨ temp.isEmpty then []
    else [(r.slug, "summit"), (r.slug, "base")]
  else []

deriving instance DecidableEq for Except

/-- Everything observable about one `process_model_run` call. -/
structure ProcResult where
  run : ModelRunRow
  run_commits : List ModelRunRow
  job : Option JobHistoryRow
  upserts : List (String × String)
  result : Except PyErr Nat
  deriving Repr, DecidableEq

/-- The `except Exception` footer: mark the `ModelRun` row and the
`JobHistory` row `failed` with `str(e)` and re-raise `e`. -/
def fail_result (run2 : ModelRunRow) (job0 : JobHistoryRow)
    (pre_commits : List ModelRunRow) (now dur : ℚ) (e : PyErr) : ProcResult :=
  let run_f : ModelRunRow := { run2 with status := .failed, error := some e.message }
  { run := run_f
    run_commits := pre_commits ++ [run2, run_f]
    job := some { job0 with
      status := "failed"
      error := some e.message
      completed_at := some (now + dur)
      duration_seconds := some dur }
    upserts := []
    result := .error e }

/-- The `try` body of `process_model_run` plus the `except` footer, entered
with the row already claimed (`run2`, committed) and the job-history row
opened (`job0`). -/
def process_body (env : WorkerEnv) (model_id run_dt_str : String)
    (run2 : ModelRunRow) (job0 : JobHistoryRow)
    (pre_commits : List ModelRunRow) (now dur : ℚ) : ProcResult :=
  if env.resorts.isEmpty then
    fail_result run2 job0 pre_commits now dur (.valueError no_resorts_msg)
  else
    match env.extraction with
    | .error e => fail_result run2 job0 pre_commits now dur e
    | .ok (avail, res) =>
        if avail.isEmpty then
          fail_result run2 job0 pre_commits now dur
            (.valueError (no_hours_msg model_id))
        else
          let valid := count_valid env model_id avail res
          if valid = 0 then
            fail_result run2 job0 pre_commits now dur
              (.valueError (all_null_msg model_id run_dt_str))
          else
            let run3 : ModelRunRow := { run2 with
              status := .completed
              completed_at := some (now + dur)
              resorts_processed := some valid }
            { run := run3
              run_commits := pre_commits ++ [run2, run3]
              job := some { job0 with
                status := "completed"
                completed_at := some (now + dur)
                duration_seconds := some dur
                resorts_processed := some valid }
              upserts := (env.resorts.enum).flatMap
                (fun p => resort_upserts env.sqrtQ model_id avail res p.1 p.2)
              result := .ok valid }

/-- Claim the run (`status = "processing"`, `started_at = now`, committed
before the heavy work) and open the `JobHistory` row, then run the body. -/
def claim_and_process (env : WorkerEnv) (model_id run_dt_str : String)
    (mr1 : ModelRunRow) (pre_commits : List ModelRunRow) (now dur : ℚ) :
    ProcResult :=
  let run2 : ModelRunRow := { mr1 with status := .processing, started_at := some now }
  let job0 : JobHistoryRow :=
    { job_type := "model_run", model_id := model_id, status := "started"
      started_at := some now }
  process_body env model_id run_dt_str run2 job0 pre_commits now dur

/-- Embeds `process_model_run(session, herbie_client, model_id, run_dt)`.
`run0` is the existing `ModelRun` row for `(model_id, run_dt)` if any
(`get_or_create_model_run` creates a `pending` one otherwise) and `history`
the `JobHistory` table.  `run_dt_str` is the run timestamp as rendered into
error messages. -/
def process_model_run (env : WorkerEnv) (run0 : Option ModelRunRow)
    (history : List JobHistoryRow) (model_id run_dt_str : String)
    (now dur : ℚ) : ProcResult :=
  let mr := run0.getD { status := .pending }
  if mr.status = RunStatus.completed then
    { run := mr, run_commits := [], job := none, upserts := [], result := .ok 0 }
  else if mr.status = RunStatus.processing then
    match mr.started_at with
    | some t =>
        let elapsed := now - t
        if get_stale_timeout history model_id < elapsed then
          let mr1 : ModelRunRow :=
            { mr with status := .failed, error := some (stale_lock_msg elapsed) }
          claim_and_process env model_id run_dt_str mr1 [mr1] now dur
        else
          { run := mr, run_commits := [], job := none, upserts := [], result := .ok 0 }
    | none =>
        let mr1 : ModelRunRow :=
          { mr with status := .failed, error := some stale_lock_no_start_msg }
        claim_and_process env model_id run_dt_str mr1 [mr1] now dur
  else
    claim_and_process env model_id run_dt_str mr [] now dur

/-! ## `engine/scheduler.py` : candidate-run fallback -/

/-- Embeds `process_with_fallback(session, herbie_client, model_id)` with the
call `process_model_run(session, herbie_client, model_id, run_dt)` abstracted
into `proc` and `get_candidate_run_dts(config)` into the candidate list:
return the first successful count; on `ValueError` remember it and try the
next candidate; any other exception class propagates; when the loop
exhausts the candidates, return `0`. -/
def process_with_fallback {α : Type} (proc : α → Except PyErr Nat) :
    List α → Except PyErr Nat
  | [] => .ok 0
  | run_dt :: rest =>
      match proc run_dt with
      | .ok n => .ok n
      | .error (.valueError _) => process_with_fallback proc rest
      | .error (.other m) => .error (.other m)

/-! ### Concrete fixtures used by witness theorems -/

/-- Two single-hour forecasts used as concrete witnesses of the blend
claims: temperature −10 °C vs −4 °C. -/
def exampleForecastA : ForecastData :=
  { times_utc := ["2024-01-01T00:00:00+00:00"]
    hourly_data := [("temperature_2m", [some (-10)])]
    hourly_units := [("temperature_2m", "C")]
    enhanced_hourly_data := none }

/-- Second blend-witness forecast. -/
def exampleForecastB : ForecastData :=
  { times_utc := ["2024-01-01T00:00:00+00:00"]
    hourly_data := [("temperature_2m", [some (-4)])]
    hourly_units := [("temperature_2m", "C")]
    enhanced_hourly_data := none }

/-- Blend-witness weight configuration. -/
def exampleWeights : List (String × ℚ) := [("hrrr", 3), ("gfs", 1)]

/-- A 2-hour blend-witness forecast (its second hour is dropped when
blended with a 1-hour forecast). -/
def exampleForecastC : ForecastData :=
  { times_utc := ["2024-01-01T00:00:00+00:00", "2024-01-01T01:00:00+00:00"]
    hourly_data := [("temperature_2m", [some (-4), some (-5)])]
    hourly_units := [("temperature_2m", "C")]
    enhanced_hourly_data := none }

/-- All-zero weight configuration (total weight zero at every hour). -/
def exampleZeroWeights : List (String × ℚ) := [("hrrr", 0), ("gfs", 0)]

/-- A 49-offset request whose last offset is smaller than the preceding
ones: long enough to be chunked, not ascending. -/
def C8_request : List Nat :=
  [1, 2, 3, 4, 5, 6, 7, 8, 9, 10, 11, 12, 13, 14, 15, 16, 17, 18, 19, 20,
   21, 22, 23, 24, 25, 26, 27, 28, 29, 30, 31, 32, 33, 34, 35, 36, 37, 38,
   39, 40, 41, 42, 43, 44, 45, 46, 47, 48, 0]

/-- One-resort worker environment whose only available offset carries an
entirely null row — the run fails with the all-data-null error. -/
def nullDataEnv : WorkerEnv :=
  { resorts := [{ slug := "alta", summit_elevation_m := 3350, base_elevation_m := 2600 }]
    extraction := .ok ([0], fun _ => [{}])
    sqrtQ := id }

/-- One-resort worker environment with a valid temperature reading at the
single available offset. -/
def validDataEnv : WorkerEnv :=
  { resorts := [{ slug := "alta", summit_elevation_m := 3350, base_elevation_m := 2600 }]
    extraction := .ok ([0], fun _ => [{ temperature := some 263.15 }])
    sqrtQ := id }

/-- One-resort worker environment whose extraction found no available
offsets — the run fails with the no-forecast-hours error. -/
def noHoursEnv : WorkerEnv :=
  { resorts := [{ slug := "alta", summit_elevation_m := 3350, base_elevation_m := 2600 }]
    extraction := .ok ([], fun _ => [])
    sqrtQ := id }

/-- Claim-side description of a run that went through a stale-lock reset and
was then reprocessed to completion: the commit trace shows the row marked
`failed` with the stale error, then re-claimed `processing`, then
`completed` with the valid-resort count; the job row completes and the
count is returned. -/
def completed_after_reset (env : WorkerEnv) (mr : ModelRunRow)
    (mid : String) (now dur : ℚ) (stale_err : String)
    (avail : List Nat) (res : Nat → List RawPoint) : ProcResult :=
  let mr1 : ModelRunRow := { mr with status := RunStatus.failed, error := some stale_err }
  let run2 : ModelRunRow := { mr1 with status := RunStatus.processing, started_at := some now }
  let run3 : ModelRunRow := { run2 with
    status := RunStatus.completed
    completed_at := some (now + dur)
    resorts_processed := some (count_valid env mid avail res) }
  { run := run3
    run_commits := [mr1, run2, run3]
    job := some { job_type := "model_run", model_id := mid, status := "completed"
                  started_at := some now, completed_at := some (now + dur)
                  duration_seconds := some dur
                  resorts_processed := some (count_valid env mid avail res) }
    upserts := (env.resorts.enum).flatMap
      (fun p => resort_upserts env.sqrtQ mid avail res p.1 p.2)
    result := .ok (count_valid env mid avail res) }

/-- A completed 1500-second job-history row for the stale-timeout witness. -/
def exampleJob : JobHistoryRow :=
  { job_type := "model_run", model_id := "gfs", status := "completed"
    duration_seconds := some 1500 }

/-! ### De-accumulation lemmas -/

/-- On null-free input the loop is a `zipWith` of clamped differences against
the input shifted by one (with the initial accumulator in front). -/
theorem de_accumulate_go_map_some (vs : List ℚ) (p : ℚ) :
    de_accumulate_go p (vs.map some)
      = List.zipWith (fun v w => some (max 0 (v - w))) vs (p :: vs) := by
  induction vs generalizing p with
  | nil => rfl
  | cons v rest ih =>
      simp only [List.map_cons, de_accumulate_go, List.zipWith_cons_cons]
      exact congrArg _ (ih v)

theorem de_accumulate_map_some (vs : List ℚ) :
    de_accumulate (vs.map some)
      = List.zipWith (fun v w => some (max 0 (v - w))) vs (0 :: vs) :=
  de_accumulate_go_map_some vs 0

/-- Helper: sum of the clamped-difference values telescopes when the chain
`p :: vs` is non-decreasing. -/
theorem sum_clamped_diff (vs : List ℚ) (p : ℚ)
    (h : List.Chain' (· ≤ ·) (p :: vs)) :
    (List.zipWith (fun v w => max 0 (v - w)) vs (p :: vs)).sum
      = (vs.getLastD p) - p := by
  induction vs generalizing p with
  | nil => simp
  | cons v rest ih =>
      have hpv : p ≤ v := (List.chain'_cons.mp h).1
      have hrest : List.Chain' (· ≤ ·) (v :: rest) := (List.chain'_cons.mp h).2
      have hmax : max 0 (v - p) = v - p := max_eq_right (by linarith)
      have ih' := ih v hrest
      simp only [List.zipWith_cons_cons, List.sum_cons, hmax, ih',
        List.getLastD_cons]
      ring

/-- Index-wise view of a `zipWith` against the one-shifted list. -/
theorem zipWith_shift_getElem {β : Type} (f : ℚ → ℚ → β) (vs : List ℚ) (p : ℚ)
    (i : Nat) (h : i < vs.length) :
    (List.zipWith f vs (p :: vs))[i]?
      = some (f (vs.getD i 0) (if i = 0 then p else vs.getD (i - 1) 0)) := by
  induction vs generalizing p i with
  | nil => simp at h
  | cons v rest ih =>
      cases i with
      | zero => simp
      | succ j =>
          have hj : j < rest.length := Nat.lt_of_succ_lt_succ h
          have step := ih v j hj
          simp only [List.zipWith_cons_cons, List.getElem?_cons_succ, step,
            List.getD_cons_succ]
          cases j with
          | zero => simp
          | succ k => simp

theorem de_accumulate_length_map_some (vs : List ℚ) :
    (de_accumulate (vs.map some)).length = vs.length := by
  rw [de_accumulate_map_some, List.length_zipWith, List.length_cons]
  exact Nat.min_eq_left (Nat.le_succ _)

/-- Values survive the `filterMap id` extraction of an all-`some` list. -/
theorem filterMap_id_zipWith_some {β : Type} (f : ℚ → ℚ → β) (vs ws : List ℚ) :
    (List.zipWith (fun v w => some (f v w)) vs ws).filterMap id
      = List.zipWith f vs ws := by
  induction vs generalizing ws with
  | nil => rfl
  | cons v rest ih =>
      cases ws with
      | nil => rfl
      | cons w ws' => simp [List.zipWith_cons_cons, List.filterMap_cons, ih]

/-! ### Supporting lemmas for the blend claims -/

/-- A pairwise-additive fold is the pair of sums of its per-element deltas. -/
theorem foldl_pair_add {α : Type} (d1 d2 : α → ℚ) (l : List α)
    (step : ℚ × ℚ → α → ℚ × ℚ)
    (hstep : ∀ acc x, step acc x = (acc.1 + d1 x, acc.2 + d2 x)) :
    ∀ acc : ℚ × ℚ, l.foldl step acc = (acc.1 + (l.map d1).sum, acc.2 + (l.map d2).sum) := by
  induction l with
  | nil => intro acc; simp
  | cons x xs ih =>
      intro acc
      rw [List.foldl_cons, hstep, ih]
      simp only [List.map_cons, List.sum_cons]
      exact Prod.ext (by ring) (by ring)

/-- Summing a function of the contributors equals summing the per-model
deltas (`0` for a non-contributing model). -/
theorem sum_over_contributors (var : String) (h : Nat)
    (G : String × ℚ → ℚ) (fs : List (String × ForecastData)) :
    ((contributors var h fs).map G).sum
      = (fs.map (fun mf =>
          ((contributesAt mf.2 var h).map (fun v => G (mf.1, v))).getD 0)).sum := by
  induction fs with
  | nil => rfl
  | cons mf fs ih =>
      simp only [contributors, List.filterMap_cons, List.map_cons, List.sum_cons]
      cases hc : contributesAt mf.2 var h with
      | none => simpa [contributors, hc] using ih
      | some v => simpa [contributors, hc, List.sum_cons] using congrArg (G (mf.1, v) + ·) ih

/-- The model loop of `compute_blend` over `hourly_data` accumulates exactly
the claim-side weighted sum and total weight of the contributors. -/
theorem blendAccum_hourly (weights : List (String × ℚ)) (var : String)
    (h : Nat) (fs : List (String × ForecastData)) :
    blendAccum hourlyOf weights var h fs
      = (weightedSumAt weights var h fs, totalWeightAt weights var h fs) := by
  have hstep : ∀ (acc : ℚ × ℚ) (mf : String × ForecastData),
      (fun (acc : ℚ × ℚ) (mf : String × ForecastData) =>
        match (hourlyOf mf.2).lookup var with
        | none => acc
        | some values =>
            match values[h]? with
            | none => acc
            | some none => acc
            | some (some val) =>
                (acc.1 + val * weightOf weights mf.1,
                 acc.2 + weightOf weights mf.1)) acc mf
      = (acc.1 + ((contributesAt mf.2 var h).map
            (fun v => v * weightOf weights mf.1)).getD 0,
         acc.2 + ((contributesAt mf.2 var h).map
            (fun v => weightOf weights mf.1)).getD 0) := by
    intro acc mf
    simp only [contributesAt, hourlyOf]
    cases hl : mf.2.hourly_data.lookup var with
    | none => simp
    | some vs =>
        cases hv : vs[h]? with
        | none => simp [hv]
        | some cell =>
            cases cell with
            | none => simp [hv]
            | some v => simp [hv]
  unfold blendAccum
  rw [foldl_pair_add _ _ fs _ hstep (0, 0)]
  simp only [weightedSumAt, totalWeightAt,
    sum_over_contributors var h (fun p => p.2 * weightOf weights p.1) fs,
    sum_over_contributors var h (fun p => weightOf weights p.1) fs]
  exact Prod.ext (by simp) (by simp)

/-- Looking up a key that is in the key list of a key-indexed `map`. -/
theorem lookup_map_self {β : Type} (l : List String) (F : String → β)
    (x : String) (hx : x ∈ l) :
    (l.map (fun v => (v, F v))).lookup x = some (F x) := by
  induction l with
  | nil => cases hx
  | cons v vs ih =>
      simp only [List.map_cons, List.lookup_cons]
      by_cases hxv : x = v
      · subst hxv; simp
      · have hbeq : (x == v) = false := beq_eq_false_iff_ne.mpr hxv
        simp only [hbeq]
        exact ih ((List.mem_cons.mp hx).resolve_left hxv)

/-- Looking up a key outside the key list of a key-indexed `map`. -/
theorem lookup_map_self_eq_none {β : Type} (l : List String) (F : String → β)
    (x : String) (hx : x ∉ l) :
    (l.map (fun v => (v, F v))).lookup x = none := by
  induction l with
  | nil => rfl
  | cons v vs ih =>
      simp only [List.map_cons, List.lookup_cons]
      have hbeq : (x == v) = false :=
        beq_eq_false_iff_ne.mpr (fun h => hx (h ▸ List.mem_cons_self _ _))
      simp only [hbeq]
      exact ih (fun h => hx (List.mem_cons_of_mem _ h))

/-- A successful association-list lookup puts the key among the keys. -/
theorem mem_keys_of_lookup {β : Type} (l : List (String × β)) (x : String)
    (v : β) (h : l.lookup x = some v) : x ∈ l.map Prod.fst := by
  induction l with
  | nil => cases h
  | cons p ps ih =>
      obtain ⟨k, w⟩ := p
      simp only [List.lookup_cons] at h
      by_cases hx : x = k
      · simp [hx]
      · have hbeq : (x == k) = false := beq_eq_false_iff_ne.mpr hx
        simp only [hbeq] at h
        exact List.mem_cons_of_mem _ (ih h)

/-- The blended cell for a template variable and an in-range hour. -/
theorem blendedCell_eq (m0 : String) (f0 : ForecastData)
    (rest : List (String × ForecastData)) (weights : List (String × ℚ))
    (var : String) (h : Nat)
    (hvar : var ∈ f0.hourly_data.map Prod.fst)
    (hh : h < min_hours ((m0, f0) :: rest)) :
    blendedCell (blend_result m0 f0 rest weights) var h
      = some (blendCellValue weights var h ((m0, f0) :: rest)) := by
  unfold blendedCell blend_result
  simp only
  rw [lookup_map_self _ _ var hvar]
  simp [hh]

/-- C4: for every hour below `min_hours` and every template (non-enhanced)
variable, the blend outputs the weighted mean over exactly the models that
report the variable with a non-null value at that hour, with configured
weights defaulting to `1.0`; in particular two contributing models blend to
`(v1*w1 + v2*w2) / (w1 + w2)`, and when one of the two is missing or null at
that hour the blend equals the other model's value unchanged. -/
theorem C4_blend_weighted_mean :
    (∀ (m0 : String) (f0 : ForecastData) (rest : List (String × ForecastData))
        (weights : List (String × ℚ)) (var : String) (h : Nat),
        var ∈ f0.hourly_data.map Prod.fst →
        h < min_hours ((m0, f0) :: rest) →
        blendedCell (blend_result m0 f0 rest weights) var h
          = some (if 0 < totalWeightAt weights var h ((m0, f0) :: rest)
              then some (weightedSumAt weights var h ((m0, f0) :: rest)
                  / totalWeightAt weights var h ((m0, f0) :: rest))
              else none))
    ∧ (∀ (m1 m2 : String) (f1 f2 : ForecastData) (weights : List (String × ℚ))
        (var : String) (h : Nat) (v1 v2 : ℚ),
        contributesAt f1 var h = some v1 →
        contributesAt f2 var h = some v2 →
        h < min_hours [(m1, f1), (m2, f2)] →
        0 < weightOf weights m1 + weightOf weights m2 →
        blendedCell (blend_result m1 f1 [(m2, f2)] weights) var h
          = some (some ((v1 * weightOf weights m1 + v2 * weightOf weights m2)
              / (weightOf weights m1 + weightOf weights m2))))
    ∧ (∀ (m1 m2 : String) (f1 f2 : ForecastData) (weights : List (String × ℚ))
        (var : String) (h : Nat) (v1 : ℚ),
        contributesAt f1 var h = some v1 →
        contributesAt f2 var h = none →
        h < min_hours [(m1, f1), (m2, f2)] →
        0 < weightOf weights m1 →
        blendedCell (blend_result m1 f1 [(m2, f2)] weights) var h
          = some (some v1))
    ∧ (∀ (m1 m2 : String) (f1 f2 : ForecastData) (weights : List (String × ℚ))
        (var : String) (h : Nat) (v2 : ℚ),
        var ∈ f1.hourly_data.map Prod.fst →
        contributesAt f1 var h = none →
        contributesAt f2 var h = some v2 →
        h < min_hours [(m1, f1), (m2, f2)] →
        0 < weightOf weights m2 →
        blendedCell (blend_result m1 f1 [(m2, f2)] weights) var h
          = some (some v2)) := by
  have keys_of_contrib : ∀ (f : ForecastData) (var : String) (h : Nat) (v : ℚ),
      contributesAt f var h = some v → var ∈ f.hourly_data.map Prod.fst := by
    intro f var h v hc
    unfold contributesAt at hc
    cases hl : f.hourly_data.lookup var with
    | none => rw [hl] at hc; cases hc
    | some vs => exact mem_keys_of_lookup _ _ _ hl
  have part1 : ∀ (m0 : String) (f0 : ForecastData)
      (rest : List (String × ForecastData)) (weights : List (String × ℚ))
      (var : String) (h : Nat),
      var ∈ f0.hourly_data.map Prod.fst →
      h < min_hours ((m0, f0) :: rest) →
      blendedCell (blend_result m0 f0 rest weights) var h
        = some (if 0 < totalWeightAt weights var h ((m0, f0) :: rest)
            then some (weightedSumAt weights var h ((m0, f0) :: rest)
                / totalWeightAt weights var h ((m0, f0) :: rest))
            else none) := by
    intro m0 f0 rest weights var h hvar hh
    rw [blendedCell_eq m0 f0 rest weights var h hvar hh]
    simp only [blendCellValue, blendAccum_hourly]
  refine ⟨part1, ?_, ?_, ?_⟩
  · intro m1 m2 f1 f2 weights var h v1 v2 hc1 hc2 hh hw
    rw [part1 m1 f1 [(m2, f2)] weights var h (keys_of_contrib f1 var h v1 hc1) hh]
    have hcontrib : contributors var h [(m1, f1), (m2, f2)] = [(m1, v1), (m2, v2)] := by
      simp [contributors, hc1, hc2]
    rw [show totalWeightAt weights var h [(m1, f1), (m2, f2)]
          = weightOf weights m1 + weightOf weights m2 by
        simp [totalWeightAt, hcontrib],
      show weightedSumAt weights var h [(m1, f1), (m2, f2)]
          = v1 * weightOf weights m1 + v2 * weightOf weights m2 by
        simp [weightedSumAt, hcontrib],
      if_pos hw]
  · intro m1 m2 f1 f2 weights var h v1 hc1 hc2 hh hw
    rw [part1 m1 f1 [(m2, f2)] weights var h (keys_of_contrib f1 var h v1 hc1) hh]
    have hcontrib : contributors var h [(m1, f1), (m2, f2)] = [(m1, v1)] := by
      simp [contributors, hc1, hc2]
    rw [show totalWeightAt weights var h [(m1, f1), (m2, f2)] = weightOf weights m1 by
        simp [totalWeightAt, hcontrib],
      show weightedSumAt weights var h [(m1, f1), (m2, f2)]
          = v1 * weightOf weights m1 by
        simp [weightedSumAt, hcontrib],
      if_pos hw, mul_div_cancel_right₀ v1 (ne_of_gt hw)]
  · intro m1 m2 f1 f2 weights var h v2 hvar hc1 hc2 hh hw
    rw [part1 m1 f1 [(m2, f2)] weights var h hvar hh]
    have hcontrib : contributors var h [(m1, f1), (m2, f2)] = [(m2, v2)] := by
      simp [contributors, hc1, hc2]
    rw [show totalWeightAt weights var h [(m1, f1), (m2, f2)] = weightOf weights m2 by
        simp [totalWeightAt, hcontrib],
      show weightedSumAt weights var h [(m1, f1), (m2, f2)]
          = v2 * weightOf weights m2 by
        simp [weightedSumAt, hcontrib],
      if_pos hw, mul_div_cancel_right₀ v2 (ne_of_gt hw)]

/-- C4 witness: with weights 3 and 1 and temperatures −10 and −4 at hour 0,
the blended value is `(-10·3 + -4·1)/4 = -8.5`. -/
theorem C4_witness :
    blendedCell (blend_result "hrrr" exampleForecastA [("gfs", exampleForecastB)]
        exampleWeights) "temperature_2m" 0
      = some (some (-17 / 2)) := by
  have hw1 : weightOf exampleWeights "hrrr" = 3 := rfl
  have hw2 : weightOf exampleWeights "gfs" = 1 := rfl
  have h := C4_blend_weighted_mean.2.1 "hrrr" "gfs" exampleForecastA
    exampleForecastB exampleWeights "temperature_2m" 0 (-10) (-4)
    (by rfl) (by rfl)
    (by norm_num [min_hours, exampleForecastA, exampleForecastB])
    (by rw [hw1, hw2]; norm_num)
  rw [h, hw1, hw2]
  norm_num

/-- A `min`-fold is bounded by its starting value. -/
theorem foldl_min_le_init {α : Type} (f : α → Nat) (l : List α) (a : Nat) :
    l.foldl (fun acc x => min acc (f x)) a ≤ a := by
  induction l generalizing a with
  | nil => simp
  | cons x xs ih => exact le_trans (ih (min a (f x))) (min_le_left _ _)

/-- A `min`-fold is bounded by every folded element. -/
theorem foldl_min_le_mem {α : Type} (f : α → Nat) (l : List α) (a : Nat) :
    ∀ x ∈ l, l.foldl (fun acc x => min acc (f x)) a ≤ f x := by
  induction l generalizing a with
  | nil => intro x hx; cases hx
  | cons y ys ih =>
      intro x hx
      rcases List.mem_cons.mp hx with rfl | hx'
      · exact le_trans (foldl_min_le_init f ys (min a (f x))) (min_le_right _ _)
      · exact ih (min a (f y)) x hx'

/-- A `min`-fold attains its starting value or some folded element. -/
theorem foldl_min_attained {α : Type} (f : α → Nat) (l : List α) (a : Nat) :
    l.foldl (fun acc x => min acc (f x)) a = a
      ∨ ∃ x ∈ l, l.foldl (fun acc x => min acc (f x)) a = f x := by
  induction l generalizing a with
  | nil => left; rfl
  | cons y ys ih =>
      rcases ih (min a (f y)) with heq | ⟨x, hx, heq⟩
      · rcases min_choice a (f y) with hm | hm
        · left; rw [List.foldl_cons, heq, hm]
        · right; exact ⟨y, List.mem_cons_self _ _, by rw [List.foldl_cons, heq, hm]⟩
      · right; exact ⟨x, List.mem_cons_of_mem _ hx, by rw [List.foldl_cons, heq]⟩

/-- `min_hours` is the least input time-series length, and is attained. -/
theorem min_hours_spec (mf0 : String × ForecastData)
    (rest : List (String × ForecastData)) :
    (∀ mf ∈ mf0 :: rest, min_hours (mf0 :: rest) ≤ mf.2.times_utc.length)
      ∧ ∃ mf ∈ mf0 :: rest, min_hours (mf0 :: rest) = mf.2.times_utc.length := by
  constructor
  · intro mf hmf
    rcases List.mem_cons.mp hmf with rfl | hmf'
    · exact foldl_min_le_init _ rest _
    · exact foldl_min_le_mem _ rest _ mf hmf'
  · rcases foldl_min_attained (fun x => x.2.times_utc.length) rest
        mf0.2.times_utc.length with heq | ⟨x, hx, heq⟩
    · exact ⟨mf0, List.mem_cons_self _ _, heq⟩
    · exact ⟨x, List.mem_cons_of_mem _ hx, heq⟩

/-- C5: on every non-empty input, `compute_blend` succeeds; the output time
axis is the first forecast's earliest `min_hours` stamps; every output
series (raw and enhanced) has length `min_hours`; `min_hours` is the least
input time-series length and is attained (tails of longer inputs are
dropped); and an hour with total weight zero blends to null for template
variables and to `0.0` for the enhanced variables. -/
theorem C5_blend_lengths :
    ∀ (m0 : String) (f0 : ForecastData) (rest : List (String × ForecastData))
      (weights : List (String × ℚ)),
      compute_blend ((m0, f0) :: rest) weights = .ok (blend_result m0 f0 rest weights)
      ∧ (blend_result m0 f0 rest weights).times_utc
          = f0.times_utc.take (min_hours ((m0, f0) :: rest))
      ∧ (∀ p ∈ (blend_result m0 f0 rest weights).hourly_data,
          p.2.length = min_hours ((m0, f0) :: rest))
      ∧ (∀ p ∈ (blend_result m0 f0 rest weights).enhanced_hourly_data,
          p.2.length = min_hours ((m0, f0) :: rest))
      ∧ (∀ mf ∈ (m0, f0) :: rest,
          min_hours ((m0, f0) :: rest) ≤ mf.2.times_utc.length)
      ∧ (∃ mf ∈ (m0, f0) :: rest,
          min_hours ((m0, f0) :: rest) = mf.2.times_utc.length)
      ∧ (∀ (var : String) (h : Nat), var ∈ f0.hourly_data.map Prod.fst →
          h < min_hours ((m0, f0) :: rest) →
          totalWeightAt weights var h ((m0, f0) :: rest) = 0 →
          blendedCell (blend_result m0 f0 rest weights) var h = some none)
      ∧ (∀ (var : String) (h : Nat), var ∈ ENHANCED_VARS →
          h < min_hours ((m0, f0) :: rest) →
          (blendAccum enhancedOf weights var h ((m0, f0) :: rest)).2 = 0 →
          blendedEnhancedCell (blend_result m0 f0 rest weights) var h = some 0) := by
  intro m0 f0 rest weights
  refine ⟨rfl, rfl, ?_, ?_, (min_hours_spec (m0, f0) rest).1,
    (min_hours_spec (m0, f0) rest).2, ?_, ?_⟩
  · intro p hp
    simp only [blend_result, List.mem_map] at hp
    obtain ⟨var, _, rfl⟩ := hp
    simp
  · intro p hp
    simp only [blend_result, List.mem_map] at hp
    obtain ⟨var, _, rfl⟩ := hp
    simp
  · intro var h hvar hh htw
    rw [blendedCell_eq m0 f0 rest weights var h hvar hh]
    simp only [blendCellValue, blendAccum_hourly, htw, lt_irrefl, if_false]
  · intro var h hvar hh hacc
    unfold blendedEnhancedCell blend_result
    simp only
    rw [lookup_map_self _ _ var hvar]
    simp [enhancedCellValue, hacc, List.getElem?_range hh]

/-- C5 witness: a 1-hour and a 2-hour forecast blend to 1 hour; the
zero-total-weight hour yields null for the raw variable and `0.0` for the
enhanced `rain` series. -/
theorem C5_witness :
    min_hours [("hrrr", exampleForecastA), ("gfs", exampleForecastC)]
        ≤ exampleForecastC.times_utc.length
    ∧ blendedCell (blend_result "hrrr" exampleForecastA [("gfs", exampleForecastB)]
        exampleZeroWeights) "temperature_2m" 0 = some none
    ∧ blendedEnhancedCell (blend_result "hrrr" exampleForecastA
        [("gfs", exampleForecastB)] exampleZeroWeights) "rain" 0 = some 0 := by
  refine ⟨?_, ?_, ?_⟩
  · exact (C5_blend_lengths "hrrr" exampleForecastA [("gfs", exampleForecastC)]
      exampleZeroWeights).2.2.2.2.1 ("gfs", exampleForecastC) (by simp)
  · exact (C5_blend_lengths "hrrr" exampleForecastA [("gfs", exampleForecastB)]
      exampleZeroWeights).2.2.2.2.2.2.1 "temperature_2m" 0 (by simp [exampleForecastA])
      (by norm_num [min_hours, exampleForecastA, exampleForecastB])
      (by
        have h1 : weightOf exampleZeroWeights "hrrr" = 0 := rfl
        have h2 : weightOf exampleZeroWeights "gfs" = 0 := rfl
        simp [totalWeightAt, contributors, contributesAt,
          exampleForecastA, exampleForecastB, h1, h2])
  · exact (C5_blend_lengths "hrrr" exampleForecastA [("gfs", exampleForecastB)]
      exampleZeroWeights).2.2.2.2.2.2.2 "rain" 0 (by simp [ENHANCED_VARS])
      (by norm_num [min_hours, exampleForecastA, exampleForecastB])
      (by simp [blendAccum, enhancedOf, exampleForecastA, exampleForecastB])

/-- C10: the blend output's schema comes from the first forecast in
iteration order — its variable key list verbatim (a variable present only in
later forecasts is absent), its units dict verbatim, and its time axis
truncated to `min_hours`. -/
theorem C10_blend_template :
    ∀ (m0 : String) (f0 : ForecastData) (rest : List (String × ForecastData))
      (weights : List (String × ℚ)),
      ((blend_result m0 f0 rest weights).hourly_data.map Prod.fst
          = f0.hourly_data.map Prod.fst)
      ∧ (blend_result m0 f0 rest weights).hourly_units = f0.hourly_units
      ∧ (blend_result m0 f0 rest weights).times_utc
          = f0.times_utc.take (min_hours ((m0, f0) :: rest))
      ∧ (∀ var : String, var ∉ f0.hourly_data.map Prod.fst →
          (blend_result m0 f0 rest weights).hourly_data.lookup var = none) := by
  intro m0 f0 rest weights
  refine ⟨?_, rfl, rfl, ?_⟩
  · simp [blend_result, List.map_map, Function.comp]
  · intro var hvar
    exact lookup_map_self_eq_none _ _ var hvar

/-- C10 witness: a variable carried only by the second forecast
(`exampleForecastC`'s key list does not contain `humidity`) is absent from
the blend of `exampleForecastA` first. -/
theorem C10_witness :
    (blend_result "hrrr" exampleForecastA [("gfs", exampleForecastB)]
        exampleWeights).hourly_data.lookup "humidity" = none := by
  exact (C10_blend_template "hrrr" exampleForecastA [("gfs", exampleForecastB)]
    exampleWeights).2.2.2 "humidity" (by simp [exampleForecastA])

/-- The percentile indices are ordered and in bounds for a non-empty list. -/
theorem p_index_bounds (n : Nat) (hn : 0 < n) :
    p10_index n ≤ p90_index n ∧ p10_index n < n ∧ p90_index n < n := by
  have h10n : n / 10 < n := Nat.div_lt_self hn (by norm_num)
  have h9 : n / 10 ≤ 9 * n / 10 := Nat.div_le_div_right (by omega)
  refine ⟨?_, ?_, ?_⟩ <;> simp only [p10_index, p90_index] <;> omega

/-- C6: for a non-empty forecast dict, each requested variable's hour cell
equals `ensemble_pair`; `ensemble_pair` sorts the gathered hour values
ascending and takes the order statistics at `floor(n·0.1)` and
`min(n−1, floor(n·0.9))`, yields `(0.0, 0.0)` for a contribution-free hour,
always satisfies `p10 ≤ p90`, and collapses to `(v, v)` for a single
contributing value. -/
theorem C6_ensemble_ranges :
    (∀ (ef0 : String × ForecastData) (rest : List (String × ForecastData))
        (vars : List String) (var : String) (h : Nat),
        var ∈ vars → h < min_hours (ef0 :: rest) →
        rangeCell (compute_ensemble_ranges (ef0 :: rest) vars) var h
          = some (ensemble_pair (ef0 :: rest) var h))
    ∧ (∀ (fs : List (String × ForecastData)) (var : String) (h : Nat),
        hour_values fs var h = [] → ensemble_pair fs var h = (0, 0))
    ∧ (∀ (fs : List (String × ForecastData)) (var : String) (h : Nat),
        hour_values fs var h ≠ [] →
        ((hour_values fs var h).insertionSort (· ≤ ·)).Sorted (· ≤ ·)
        ∧ ((hour_values fs var h).insertionSort (· ≤ ·)).Perm (hour_values fs var h)
        ∧ ensemble_pair fs var h
            = (((hour_values fs var h).insertionSort (· ≤ ·)).getD
                (p10_index (hour_values fs var h).length) 0,
              ((hour_values fs var h).insertionSort (· ≤ ·)).getD
                (p90_index (hour_values fs var h).length) 0))
    ∧ (∀ (fs : List (String × ForecastData)) (var : String) (h : Nat) (a b : ℚ),
        ensemble_pair fs var h = (a, b) → a ≤ b)
    ∧ (∀ (fs : List (String × ForecastData)) (var : String) (h : Nat) (v : ℚ),
        hour_values fs var h = [v] → ensemble_pair fs var h = (v, v)) := by
  have pair_sorted : ∀ (fs : List (String × ForecastData)) (var : String) (h : Nat),
      hour_values fs var h ≠ [] →
      ensemble_pair fs var h
        = (((hour_values fs var h).insertionSort (· ≤ ·)).getD
            (p10_index (hour_values fs var h).length) 0,
          ((hour_values fs var h).insertionSort (· ≤ ·)).getD
            (p90_index (hour_values fs var h).length) 0) := by
    intro fs var h hne
    simp [ensemble_pair, List.isEmpty_iff, hne, List.length_insertionSort]
  refine ⟨?_, ?_, ?_, ?_, ?_⟩
  · intro ef0 rest vars var h hvar hh
    show rangeCell (vars.map (fun v => (v, ensemble_entry (ef0 :: rest) v))) var h = _
    unfold rangeCell
    rw [lookup_map_self vars (ensemble_entry (ef0 :: rest)) var hvar]
    simp [ensemble_entry, List.getElem?_range hh]
  · intro fs var h he
    simp [ensemble_pair, he]
  · intro fs var h hne
    exact ⟨List.sorted_insertionSort _ _, List.perm_insertionSort _ _,
      pair_sorted fs var h hne⟩
  · intro fs var h a b hab
    by_cases hne : hour_values fs var h = []
    · rw [show ensemble_pair fs var h = (0, 0) by simp [ensemble_pair, hne]] at hab
      injection hab with h1 h2
      rw [← h1, ← h2]
    · rw [pair_sorted fs var h hne] at hab
      set sorted_vals := (hour_values fs var h).insertionSort (· ≤ ·) with hsv
      have hn : 0 < (hour_values fs var h).length :=
        List.length_pos.mpr hne
      have hlen : sorted_vals.length = (hour_values fs var h).length :=
        List.length_insertionSort _ _
      obtain ⟨hle, h10, h90⟩ := p_index_bounds (hour_values fs var h).length hn
      have h10' : p10_index (hour_values fs var h).length < sorted_vals.length := by omega
      have h90' : p90_index (hour_values fs var h).length < sorted_vals.length := by omega
      have ha : a = sorted_vals.get ⟨p10_index (hour_values fs var h).length, h10'⟩ := by
        have := congrArg Prod.fst hab
        simp only at this
        rw [← this, List.getD_eq_get sorted_vals 0 h10']
      have hb : b = sorted_vals.get ⟨p90_index (hour_values fs var h).length, h90'⟩ := by
        have := congrArg Prod.snd hab
        simp only at this
        rw [← this, List.getD_eq_get sorted_vals 0 h90']
      rw [ha, hb]
      exact (List.sorted_insertionSort _ _).rel_get_of_le (by simpa using hle)
  · intro fs var h v hv
    simp [ensemble_pair, hv, p10_index, p90_index]

/-- C6 witness: two single-hour ensemble members with temperatures −10 and
−4 give the range `(-10, -4)` at hour 0, and a single member collapses to
`(v, v)`; `p10 ≤ p90` at the concrete output. -/
theorem C6_witness :
    rangeCell (compute_ensemble_ranges
        [("gefs", exampleForecastA), ("ecmwf_ens", exampleForecastB)]
        ["temperature_2m"]) "temperature_2m" 0 = some (-10, -4)
    ∧ ensemble_pair [("gefs", exampleForecastA)] "temperature_2m" 0 = (-10, -10)
    ∧ ((-10 : ℚ) ≤ -4) := by
  have hv : hour_values [("gefs", exampleForecastA), ("ecmwf_ens", exampleForecastB)]
      "temperature_2m" 0 = [-10, -4] := by
    simp [hour_values, gatherHourValue, rawHourValue, enhancedOf,
      exampleForecastA, exampleForecastB]
  have hpair : ensemble_pair [("gefs", exampleForecastA), ("ecmwf_ens", exampleForecastB)]
      "temperature_2m" 0 = (-10, -4) := by
    rw [C6_ensemble_ranges.2.2.1 _ "temperature_2m" 0 (by rw [hv]; simp) |>.2.2]
    rw [hv]
    norm_num [List.insertionSort, List.orderedInsert, p10_index, p90_index]
  refine ⟨?_, ?_, ?_⟩
  · rw [C6_ensemble_ranges.1 ("gefs", exampleForecastA) [("ecmwf_ens", exampleForecastB)]
      ["temperature_2m"] "temperature_2m" 0 (by simp)
      (by norm_num [min_hours, exampleForecastA, exampleForecastB]), hpair]
  · exact C6_ensemble_ranges.2.2.2.2 [("gefs", exampleForecastA)] "temperature_2m" 0 (-10)
      (by simp [hour_values, gatherHourValue, rawHourValue, enhancedOf, exampleForecastA])
  · exact C6_ensemble_ranges.2.2.2.1 _ "temperature_2m" 0 (-10) (-4) hpair

/-- The gust series selected by `build_hourly_data`, exposed through the
output dict: the per-series `is_ecmwf and all-null` test decides between the
speed-scaling estimate and the raw values converted to km/h. -/
theorem build_gusts (sqrtQ : ℚ → ℚ) (pts : List RawPoint) (mid : String)
    (hne : pts ≠ []) :
    (build_hourly_data sqrtQ pts mid).1.lookup "wind_gusts_10m"
      = some (if mid ∈ ECMWF_MODELS ∧ ∀ g ∈ pts.map (·.wind_gusts), g = none
          then estimate_wind_gusts
            (compute_wind_speed sqrtQ (pts.map (·.wind_u)) (pts.map (·.wind_v)))
            none 1.5
          else estimate_wind_gusts
            (compute_wind_speed sqrtQ (pts.map (·.wind_u)) (pts.map (·.wind_v)))
            (some ((pts.map (·.wind_gusts)).map (fun g => g.map (· * 3.6)))) 1.5) := by
  rw [show build_hourly_data sqrtQ pts mid
      = if pts.isEmpty then ([], []) else _ from rfl]
  rw [if_neg (by simpa [List.isEmpty_iff] using hne)]
  by_cases hc : mid ∈ ECMWF_MODELS ∧ ∀ g ∈ pts.map (·.wind_gusts), g = none
  · rw [if_pos hc]
    simp only [List.lookup, if_pos hc]
    rfl
  · rw [if_neg hc]
    simp only [List.lookup, if_neg hc]
    rfl

/-- C9 (counterexample): for a non-ECMWF model (`gfs`) whose raw gust is
absent at an hour, the output gust is null, not `1.5 ×` the derived wind
speed: the estimate only applies to the ECMWF family with an all-null gust
series, and otherwise null raw gusts stay null. -/
theorem C9_counterexample :
    (build_hourly_data id [{ wind_u := some 0, wind_v := some 0 }] "gfs").1.lookup
        "wind_gusts_10m" = some [none]
    ∧ (compute_wind_speed id
          ([({ wind_u := some 0, wind_v := some 0 } : RawPoint)].map (·.wind_u))
          ([({ wind_u := some 0, wind_v := some 0 } : RawPoint)].map (·.wind_v))).map
        (fun s => s.map (· * (1.5 : ℚ))) = [some 0]
    ∧ ([none] : List (Option ℚ)) ≠ [some 0] := by
  refine ⟨?_, ?_, by simp⟩
  · rw [build_gusts id [{ wind_u := some 0, wind_v := some 0 }] "gfs" (by simp)]
    rw [if_neg (by simp [ECMWF_MODELS])]
    simp [estimate_wind_gusts, compute_wind_speed]
  · simp [compute_wind_speed]

/-- C9 (amended): in `build_hourly_data`, when the model is in the ECMWF
family and provides no gust value at any hour, each hour's output gust is
`1.5 ×` the derived wind speed (null where the speed is null); otherwise each
hour's output gust is the raw gust converted `× 3.6` when present and null
when absent. -/
theorem C9_wind_gusts :
    (∀ (sqrtQ : ℚ → ℚ) (pts : List RawPoint) (mid : String),
        pts ≠ [] → mid ∈ ECMWF_MODELS → (∀ p ∈ pts, p.wind_gusts = none) →
        (build_hourly_data sqrtQ pts mid).1.lookup "wind_gusts_10m"
          = some ((compute_wind_speed sqrtQ (pts.map (·.wind_u))
              (pts.map (·.wind_v))).map (fun s => s.map (· * 1.5))))
    ∧ (∀ (sqrtQ : ℚ → ℚ) (pts : List RawPoint) (mid : String),
        pts ≠ [] →
        ¬(mid ∈ ECMWF_MODELS ∧ ∀ p ∈ pts, p.wind_gusts = none) →
        (build_hourly_data sqrtQ pts mid).1.lookup "wind_gusts_10m"
          = some (pts.map (fun p => p.wind_gusts.map (· * 3.6)))) := by
  constructor
  · intro sqrtQ pts mid hne hecmwf hnull
    rw [build_gusts sqrtQ pts mid hne,
      if_pos ⟨hecmwf, by simpa using hnull⟩]
    rfl
  · intro sqrtQ pts mid hne hnc
    rw [build_gusts sqrtQ pts mid hne,
      if_neg (by simpa using hnc)]
    have hlen : pts.length
        = (compute_wind_speed sqrtQ (pts.map (·.wind_u)) (pts.map (·.wind_v))).length := by
      simp [compute_wind_speed]
    rw [show estimate_wind_gusts
        (compute_wind_speed sqrtQ (pts.map (·.wind_u)) (pts.map (·.wind_v)))
        (some ((pts.map (·.wind_gusts)).map (fun g => g.map (· * 3.6)))) 1.5
        = (pts.map (·.wind_gusts)).map (fun g => g.map (· * 3.6)) by
      simp [estimate_wind_gusts, hlen]]
    simp [List.map_map, Function.comp]

/-- C9 witness: an ECMWF model (`ifs`) with an all-null gust series
estimates gusts as `1.5 ×` wind speed, and a non-ECMWF model (`gfs`) with a
present raw gust converts it `× 3.6`. -/
theorem C9_witness :
    (build_hourly_data id [{ wind_u := some 0, wind_v := some 0 }] "ifs").1.lookup
        "wind_gusts_10m"
      = some ((compute_wind_speed id
          ([({ wind_u := some 0, wind_v := some 0 } : RawPoint)].map (·.wind_u))
          ([({ wind_u := some 0, wind_v := some 0 } : RawPoint)].map (·.wind_v))).map
        (fun s => s.map (· * 1.5)))
    ∧ (build_hourly_data id [{ wind_gusts := some 10 }] "gfs").1.lookup
        "wind_gusts_10m"
      = some ([({ wind_gusts := some 10 } : RawPoint)].map
          (fun p => p.wind_gusts.map (· * 3.6))) := by
  constructor
  · exact C9_wind_gusts.1 id [{ wind_u := some 0, wind_v := some 0 }] "ifs"
      (by simp) (by simp [ECMWF_MODELS]) (by simp)
  · exact C9_wind_gusts.2 id [{ wind_gusts := some 10 }] "gfs" (by simp)
      (by simp [ECMWF_MODELS])

/-! ### Supporting lemmas for the chunked-extraction claim -/

/-- The dict built by inserting each available offset's rows maps exactly
the inserted keys (later duplicates overwrite with the same value). -/
theorem foldl_dictInsert (sample : Nat → List RawPoint) (fl : List Nat)
    (d : FxxDict) (k : Nat) :
    (fl.foldl (fun d f => dictInsert d f (sample f)) d) k
      = if k ∈ fl then some (sample k) else d k := by
  induction fl generalizing d with
  | nil => simp
  | cons f fs ih =>
      rw [List.foldl_cons, ih]
      by_cases hk : k ∈ fs
      · simp [hk]
      · by_cases hkf : k = f
        · subst hkf; simp [hk, dictInsert]
        · simp [hk, hkf, dictInsert]

/-- A single chunk's available-offset list under a sorted request: sorting
the filtered request is the identity. -/
theorem single_avail_of_sorted (avail : Nat → Bool) (sample : Nat → List RawPoint)
    (l : List Nat) (hs : List.Sorted (· ≤ ·) l) :
    (extract_all_hours_single avail sample l).1 = l.filter (fun f => avail f) := by
  unfold extract_all_hours_single
  by_cases he : (l.filter (fun f => avail f)).isEmpty
  · rw [if_pos he]
    simp only [List.isEmpty_iff] at he
    rw [he]
  · rw [if_neg he]
    exact (hs.filter _).insertionSort_eq

/-- A single chunk's result dict holds exactly the available requested
offsets, for any request order. -/
theorem single_dict (avail : Nat → Bool) (sample : Nat → List RawPoint)
    (l : List Nat) (k : Nat) :
    (extract_all_hours_single avail sample l).2 k
      = if k ∈ l.filter (fun f => avail f) then some (sample k) else none := by
  unfold extract_all_hours_single
  by_cases he : (l.filter (fun f => avail f)).isEmpty
  · rw [if_pos he]
    simp only [List.isEmpty_iff] at he
    rw [he]
    simp
  · rw [if_neg he]
    exact foldl_dictInsert sample _ _ k

/-- The chunked available-offset list under a sorted request concatenates to
the filtered request. -/
theorem chunked_avail_of_sorted (avail : Nat → Bool) (sample : Nat → List RawPoint) :
    ∀ (n : Nat) (l : List Nat), l.length ≤ n → List.Sorted (· ≤ ·) l →
    (extract_all_hours_chunked avail sample l).1 = l.filter (fun f => avail f) := by
  intro n
  induction n with
  | zero =>
      intro l hl _
      rw [List.length_eq_zero.mp (Nat.le_zero.mp hl)]
      rw [extract_all_hours_chunked]
      rfl
  | succ n ih =>
      intro l hl hs
      match l with
      | [] =>
          rw [extract_all_hours_chunked]
          rfl
      | f :: rest =>
          rw [extract_all_hours_chunked]
          have htake : List.Sorted (· ≤ ·) ((f :: rest).take FASTHERBIE_CHUNK_SIZE) :=
            List.Pairwise.sublist (List.take_sublist _ _) hs
          have hdrop : List.Sorted (· ≤ ·) ((f :: rest).drop FASTHERBIE_CHUNK_SIZE) :=
            List.Pairwise.sublist (List.drop_sublist _ _) hs
          have hlen : ((f :: rest).drop FASTHERBIE_CHUNK_SIZE).length ≤ n := by
            simp only [List.length_drop, List.length_cons, FASTHERBIE_CHUNK_SIZE]
            simp only [List.length_cons] at hl
            omega
          show (extract_all_hours_single avail sample ((f :: rest).take FASTHERBIE_CHUNK_SIZE)).1
              ++ (extract_all_hours_chunked avail sample ((f :: rest).drop FASTHERBIE_CHUNK_SIZE)).1
            = _
          rw [single_avail_of_sorted avail sample _ htake, ih _ hlen hdrop,
            ← List.filter_append, List.take_append_drop]

/-- The chunked result dict holds exactly the available requested offsets,
for any request order. -/
theorem chunked_dict (avail : Nat → Bool) (sample : Nat → List RawPoint) :
    ∀ (n : Nat) (l : List Nat), l.length ≤ n → ∀ k,
    (extract_all_hours_chunked avail sample l).2 k
      = if k ∈ l.filter (fun f => avail f) then some (sample k) else none := by
  intro n
  induction n with
  | zero =>
      intro l hl k
      rw [List.length_eq_zero.mp (Nat.le_zero.mp hl)]
      rw [extract_all_hours_chunked]
      simp
  | succ n ih =>
      intro l hl k
      match l with
      | [] =>
          rw [extract_all_hours_chunked]
          simp
      | f :: rest =>
          rw [extract_all_hours_chunked]
          have hlen : ((f :: rest).drop FASTHERBIE_CHUNK_SIZE).length ≤ n := by
            simp only [List.length_drop, List.length_cons, FASTHERBIE_CHUNK_SIZE]
            simp only [List.length_cons] at hl
            omega
          have hsplit : (f :: rest).filter (fun f => avail f)
              = ((f :: rest).take FASTHERBIE_CHUNK_SIZE).filter (fun f => avail f)
                ++ ((f :: rest).drop FASTHERBIE_CHUNK_SIZE).filter (fun f => avail f) := by
            rw [← List.filter_append, List.take_append_drop]
          show dictUpdate
              (extract_all_hours_single avail sample ((f :: rest).take FASTHERBIE_CHUNK_SIZE)).2
              (extract_all_hours_chunked avail sample ((f :: rest).drop FASTHERBIE_CHUNK_SIZE)).2 k
            = _
          rw [dictUpdate, ih _ hlen k, single_dict avail sample _ k, hsplit]
          by_cases hkd : k ∈ ((f :: rest).drop FASTHERBIE_CHUNK_SIZE).filter (fun f => avail f)
          · simp [hkd]
          · by_cases hkt : k ∈ ((f :: rest).take FASTHERBIE_CHUNK_SIZE).filter (fun f => avail f)
            · simp [hkd, hkt]
            · simp [hkd, hkt]

/-- One unfolding step of the chunk loop on a non-empty request. -/
theorem chunked_cons (avail : Nat → Bool) (sample : Nat → List RawPoint)
    (f : Nat) (rest : List Nat) :
    extract_all_hours_chunked avail sample (f :: rest)
      = ((extract_all_hours_single avail sample
            ((f :: rest).take FASTHERBIE_CHUNK_SIZE)).1
          ++ (extract_all_hours_chunked avail sample
            ((f :: rest).drop FASTHERBIE_CHUNK_SIZE)).1,
        dictUpdate
          (extract_all_hours_single avail sample
            ((f :: rest).take FASTHERBIE_CHUNK_SIZE)).2
          (extract_all_hours_chunked avail sample
            ((f :: rest).drop FASTHERBIE_CHUNK_SIZE)).2) := by
  rw [extract_all_hours_chunked]

/-- The chunk loop on the empty request. -/
theorem chunked_nil (avail : Nat → Bool) (sample : Nat → List RawPoint) :
    extract_all_hours_chunked avail sample [] = ([], fun _ => none) := by
  rw [extract_all_hours_chunked]

/-- C8 (counterexample): with every offset available, the 49-hour request
`[1..48, 0]` is chunked into `[1..48]` and `[0]`, whose concatenated
available list `[1,…,48,0]` differs from the single-chunk result
`sorted([1..48,0]) = [0,…,48]` — `_extract_all_hours_single` sorts its
available list, so chunked and unchunked processing disagree on a
non-ascending request. -/
theorem C8_counterexample :
    (extract_all_hours_batch (fun _ => true) (fun _ => []) C8_request).1
      ≠ (extract_all_hours_single (fun _ => true) (fun _ => []) C8_request).1 := by
  have hb : extract_all_hours_batch (fun _ => true) (fun _ => []) C8_request
      = extract_all_hours_chunked (fun _ => true) (fun _ => []) C8_request := by
    simp only [extract_all_hours_batch]
    rw [if_pos (by decide)]
  rw [hb]
  rw [show C8_request
      = 1 :: [2, 3, 4, 5, 6, 7, 8, 9, 10, 11, 12, 13, 14, 15, 16, 17, 18, 19,
        20, 21, 22, 23, 24, 25, 26, 27, 28, 29, 30, 31, 32, 33, 34, 35, 36,
        37, 38, 39, 40, 41, 42, 43, 44, 45, 46, 47, 48, 0] from rfl]
  rw [chunked_cons]
  rw [show ((1 :: [2, 3, 4, 5, 6, 7, 8, 9, 10, 11, 12, 13, 14, 15, 16, 17, 18,
      19, 20, 21, 22, 23, 24, 25, 26, 27, 28, 29, 30, 31, 32, 33, 34, 35, 36,
      37, 38, 39, 40, 41, 42, 43, 44, 45, 46, 47, 48, 0] : List Nat).drop
        FASTHERBIE_CHUNK_SIZE) = 0 :: [] from by decide]
  rw [chunked_cons]
  rw [show ((0 :: [] : List Nat).drop FASTHERBIE_CHUNK_SIZE) = [] from by decide]
  rw [chunked_nil]
  decide

/-- C8 (amended): for every **ascending** requested hour-offset list and
fixed per-offset availability, chunked extraction returns exactly what
single-chunk processing of the whole request would — the available-offset
list is the request filtered to availability, and the per-offset dicts agree
everywhere, mapping each available requested offset to its sampled rows. -/
theorem C8_chunked_extraction :
    ∀ (avail : Nat → Bool) (sample : Nat → List RawPoint) (l : List Nat),
      List.Sorted (· ≤ ·) l →
      (extract_all_hours_batch avail sample l).1 = l.filter (fun f => avail f)
      ∧ (extract_all_hours_single avail sample l).1 = l.filter (fun f => avail f)
      ∧ (∀ k, (extract_all_hours_batch avail sample l).2 k
            = (extract_all_hours_single avail sample l).2 k)
      ∧ (∀ k, (extract_all_hours_batch avail sample l).2 k
            = if k ∈ l.filter (fun f => avail f) then some (sample k) else none) := by
  intro avail sample l hs
  have hsingle1 := single_avail_of_sorted avail sample l hs
  have hsingled := single_dict avail sample l
  by_cases hlen : FASTHERBIE_CHUNK_SIZE < l.length
  · have hb : extract_all_hours_batch avail sample l
        = extract_all_hours_chunked avail sample l := by
      simp only [extract_all_hours_batch, if_pos hlen]
    rw [hb]
    refine ⟨chunked_avail_of_sorted avail sample l.length l le_rfl hs,
      hsingle1, ?_, ?_⟩
    · intro k
      rw [chunked_dict avail sample l.length l le_rfl k, hsingled k]
    · intro k
      exact chunked_dict avail sample l.length l le_rfl k
  · have hb : extract_all_hours_batch avail sample l
        = extract_all_hours_single avail sample l := by
      simp only [extract_all_hours_batch, if_neg hlen]
    rw [hb]
    exact ⟨hsingle1, hsingle1, fun k => rfl, hsingled⟩

/-- C8 witness: an ascending 50-hour request with only even offsets
available — the chunked result is the request filtered to the even offsets,
and the dict holds offset 4. -/
theorem C8_witness :
    (extract_all_hours_batch (fun k => decide (k % 2 = 0)) (fun _ => [])
        (List.range 50)).1
      = (List.range 50).filter (fun f => decide (f % 2 = 0))
    ∧ (extract_all_hours_batch (fun k => decide (k % 2 = 0)) (fun _ => [])
        (List.range 50)).2 4
      = (if (4 : Nat) ∈ (List.range 50).filter (fun f => decide (f % 2 = 0))
          then some [] else none) := by
  have hs : List.Sorted (· ≤ ·) (List.range 50) := by decide
  exact ⟨(C8_chunked_extraction _ _ _ hs).1,
    (C8_chunked_extraction _ _ _ hs).2.2.2 4⟩

/-- C2 (counterexample): `process_with_fallback` catches every `ValueError`,
not only the no-forecast-hours one.  Here `process_model_run` raises the
all-data-null `ValueError` on the newest candidate, yet the fallback retries
the previous candidate and finally returns `0` instead of propagating that
error to the caller. -/
theorem C2_counterexample :
    (process_model_run nullDataEnv none [] "gfs" "2024-01-01T12:00" 1000 5).result
      = .error (.valueError (all_null_msg "gfs" "2024-01-01T12:00"))
    ∧ process_with_fallback
        (fun run_dt_str =>
          (process_model_run nullDataEnv none [] "gfs" run_dt_str 1000 5).result)
        ["2024-01-01T12:00", "2024-01-01T00:00"] = .ok 0 := by
  exact ⟨rfl, rfl⟩

/-- C2 (amended): `process_with_fallback` tries the candidates newest first
and retries the next candidate precisely when the call raised a
`ValueError` — the class covering the no-forecast-hours, all-data-null and
no-resorts failures — while every other exception class propagates
unchanged; when every candidate raised a `ValueError` it returns `0`. -/
theorem C2_fallback_on_valueerror :
    (∀ (α : Type) (proc : α → Except PyErr Nat) (c : α) (rest : List α) (n : Nat),
        proc c = .ok n → process_with_fallback proc (c :: rest) = .ok n)
    ∧ (∀ (α : Type) (proc : α → Except PyErr Nat) (c : α) (rest : List α) (m : String),
        proc c = .error (.valueError m) →
        process_with_fallback proc (c :: rest) = process_with_fallback proc rest)
    ∧ (∀ (α : Type) (proc : α → Except PyErr Nat) (c : α) (rest : List α) (m : String),
        proc c = .error (.other m) →
        process_with_fallback proc (c :: rest) = .error (.other m))
    ∧ (∀ (α : Type) (proc : α → Except PyErr Nat) (cs : List α),
        (∀ c ∈ cs, ∃ m, proc c = .error (.valueError m)) →
        process_with_fallback proc cs = .ok 0) := by
  refine ⟨?_, ?_, ?_, ?_⟩
  · intro α proc c rest n h
    simp [process_with_fallback, h]
  · intro α proc c rest m h
    simp [process_with_fallback, h]
  · intro α proc c rest m h
    simp [process_with_fallback, h]
  · intro α proc cs h
    induction cs with
    | nil => rfl
    | cons c rest ih =>
        obtain ⟨m, hm⟩ := h c (List.mem_cons_self _ _)
        rw [show process_with_fallback proc (c :: rest)
            = process_with_fallback proc rest by
          simp [process_with_fallback, hm]]
        exact ih (fun c' hc' => h c' (List.mem_cons_of_mem _ hc'))

/-- C2 witness: a first-candidate `ValueError` falls back to the next
candidate's success; a non-`ValueError` propagates; all-`ValueError`
candidates yield `0`. -/
theorem C2_witness :
    process_with_fallback
        (fun n : Nat => if n = 0 then Except.error (PyErr.valueError "no data")
          else .ok 7) [0, 1] = .ok 7
    ∧ process_with_fallback
        (fun _ : Nat => (Except.error (PyErr.other "boom") : Except PyErr Nat))
        [0, 1] = .error (.other "boom")
    ∧ process_with_fallback
        (fun _ : Nat => (Except.error (PyErr.valueError "nope") : Except PyErr Nat))
        [0, 1] = .ok 0 := by
  refine ⟨?_, ?_, ?_⟩
  · rw [C2_fallback_on_valueerror.2.1 Nat _ 0 [1] "no data" (by simp)]
    exact C2_fallback_on_valueerror.1 Nat _ 1 [] 7 (by simp)
  · exact C2_fallback_on_valueerror.2.2.1 Nat _ 0 [1] "boom" rfl
  · exact C2_fallback_on_valueerror.2.2.2 Nat _ [0, 1]
      (fun c _ => ⟨"nope", rfl⟩)

/-- C3: when extraction yields zero forecast hours, or no resort produced
non-null data, `process_model_run` raises the corresponding descriptive
`ValueError` — the two texts are distinct — and the `except` footer
(`fail_result`) marks the `ModelRun` row and the `JobHistory` row `failed`
with that text before re-raising the error to the caller. -/
theorem C3_total_failure :
    (∀ model_id run_dt : String, no_hours_msg model_id ≠ all_null_msg model_id run_dt)
    ∧ (∀ (env : WorkerEnv) (mr : ModelRunRow) (history : List JobHistoryRow)
        (model_id run_dt_str : String) (now dur : ℚ) (res : Nat → List RawPoint),
        mr.status ≠ RunStatus.completed → mr.status ≠ RunStatus.processing →
        env.resorts ≠ [] → env.extraction = .ok ([], res) →
        process_model_run env (some mr) history model_id run_dt_str now dur
          = fail_result { mr with status := .processing, started_at := some now }
              { job_type := "model_run", model_id := model_id, status := "started",
                started_at := some now }
              [] now dur (.valueError (no_hours_msg model_id)))
    ∧ (∀ (env : WorkerEnv) (mr : ModelRunRow) (history : List JobHistoryRow)
        (model_id run_dt_str : String) (now dur : ℚ) (avail : List Nat)
        (res : Nat → List RawPoint),
        mr.status ≠ RunStatus.completed → mr.status ≠ RunStatus.processing →
        env.resorts ≠ [] → env.extraction = .ok (avail, res) → avail ≠ [] →
        count_valid env model_id avail res = 0 →
        process_model_run env (some mr) history model_id run_dt_str now dur
          = fail_result { mr with status := .processing, started_at := some now }
              { job_type := "model_run", model_id := model_id, status := "started",
                started_at := some now }
              [] now dur (.valueError (all_null_msg model_id run_dt_str)))
    ∧ (∀ (run2 : ModelRunRow) (job0 : JobHistoryRow) (pre : List ModelRunRow)
        (now dur : ℚ) (e : PyErr),
        (fail_result run2 job0 pre now dur e).run.status = RunStatus.failed
        ∧ (fail_result run2 job0 pre now dur e).run.error = some e.message
        ∧ (fail_result run2 job0 pre now dur e).job
            = some { job0 with
                status := "failed"
                error := some e.message
                completed_at := some (now + dur)
                duration_seconds := some dur }
        ∧ (fail_result run2 job0 pre now dur e).result = .error e) := by
  have hclaim : ∀ (env : WorkerEnv) (mr : ModelRunRow) (history : List JobHistoryRow)
      (model_id run_dt_str : String) (now dur : ℚ),
      mr.status ≠ RunStatus.completed → mr.status ≠ RunStatus.processing →
      process_model_run env (some mr) history model_id run_dt_str now dur
        = process_body env model_id run_dt_str
            { mr with status := .processing, started_at := some now }
            { job_type := "model_run", model_id := model_id, status := "started",
              started_at := some now }
            [] now dur := by
    intro env mr history model_id run_dt_str now dur h1 h2
    simp only [process_model_run, Option.getD_some, if_neg h1, if_neg h2,
      claim_and_process]
  refine ⟨?_, ?_, ?_, ?_⟩
  · intro model_id run_dt h
    have h2 := congrArg String.data h
    simp [no_hours_msg, all_null_msg, String.data_append] at h2
  · intro env mr history model_id run_dt_str now dur res h1 h2 hres hextr
    rw [hclaim env mr history model_id run_dt_str now dur h1 h2]
    have hre : env.resorts.isEmpty = false := by
      simpa [List.isEmpty_iff] using hres
    simp only [process_body, hre, Bool.false_eq_true, if_false, hextr,
      List.isEmpty_nil, if_true]
  · intro env mr history model_id run_dt_str now dur avail res h1 h2 hres hextr
      havail hvalid
    rw [hclaim env mr history model_id run_dt_str now dur h1 h2]
    have hre : env.resorts.isEmpty = false := by
      simpa [List.isEmpty_iff] using hres
    have hae : avail.isEmpty = false := by
      simpa [List.isEmpty_iff] using havail
    simp only [process_body, hre, Bool.false_eq_true, if_false, hextr, hae,
      hvalid, if_true]
  · intro run2 job0 pre now dur e
    exact ⟨rfl, rfl, rfl, rfl⟩

/-- C3 witness: the two concrete failure environments — no available
offsets, and one offset whose data is all null — fail the run with the
matching distinct error texts on both rows and re-raise. -/
theorem C3_witness :
    no_hours_msg "gfs" ≠ all_null_msg "gfs" "2024-01-01T12:00"
    ∧ process_model_run noHoursEnv (some { status := .pending }) [] "gfs"
        "2024-01-01T12:00" 1000 5
      = fail_result { status := .processing, started_at := some 1000 }
          { job_type := "model_run", model_id := "gfs", status := "started",
            started_at := some 1000 }
          [] 1000 5 (.valueError (no_hours_msg "gfs"))
    ∧ process_model_run nullDataEnv (some { status := .pending }) [] "gfs"
        "2024-01-01T12:00" 1000 5
      = fail_result { status := .processing, started_at := some 1000 }
          { job_type := "model_run", model_id := "gfs", status := "started",
            started_at := some 1000 }
          [] 1000 5 (.valueError (all_null_msg "gfs" "2024-01-01T12:00")) := by
  refine ⟨C3_total_failure.1 "gfs" "2024-01-01T12:00", ?_, ?_⟩
  · exact C3_total_failure.2.1 noHoursEnv { status := .pending } [] "gfs"
      "2024-01-01T12:00" 1000 5 (fun _ => []) (by simp) (by simp)
      (by simp [noHoursEnv]) rfl
  · exact C3_total_failure.2.2.1 nullDataEnv { status := .pending } [] "gfs"
      "2024-01-01T12:00" 1000 5 [0] (fun _ => [{}]) (by simp) (by simp)
      (by simp [nullDataEnv]) rfl (by simp) rfl

/-- C1: the stale timeout is `STALE_LOCK_FALLBACK = 2500` s with no usable
history and `max(2 × average completed duration, 2500)` with a positive
average; a `processing` run whose elapsed time is within the timeout is
skipped with `0` and nothing is touched (no commit, no job row, no upserts);
one beyond the timeout — or with no `started_at` — is marked `failed` with
the stale-lock-reset error, re-claimed `processing`, and reprocessed to
completion when the extraction yields valid data. -/
theorem C1_stale_lock :
    (∀ (history : List JobHistoryRow) (mid : String),
        staleDurations history mid = [] →
        get_stale_timeout history mid = STALE_LOCK_FALLBACK)
    ∧ (∀ (history : List JobHistoryRow) (mid : String),
        0 < (staleDurations history mid).sum / (staleDurations history mid).length →
        get_stale_timeout history mid
          = max ((staleDurations history mid).sum
                / (staleDurations history mid).length * 2) STALE_LOCK_FALLBACK)
    ∧ (∀ (env : WorkerEnv) (mr : ModelRunRow) (history : List JobHistoryRow)
        (mid rds : String) (now dur t : ℚ),
        mr.status = RunStatus.processing → mr.started_at = some t →
        now - t ≤ get_stale_timeout history mid →
        process_model_run env (some mr) history mid rds now dur
          = { run := mr, run_commits := [], job := none, upserts := [],
              result := .ok 0 })
    ∧ (∀ (env : WorkerEnv) (mr : ModelRunRow) (history : List JobHistoryRow)
        (mid rds : String) (now dur t : ℚ) (avail : List Nat)
        (res : Nat → List RawPoint),
        mr.status = RunStatus.processing → mr.started_at = some t →
        get_stale_timeout history mid < now - t →
        env.resorts ≠ [] → env.extraction = .ok (avail, res) → avail ≠ [] →
        count_valid env mid avail res ≠ 0 →
        process_model_run env (some mr) history mid rds now dur
          = completed_after_reset env mr mid now dur (stale_lock_msg (now - t))
              avail res)
    ∧ (∀ (env : WorkerEnv) (mr : ModelRunRow) (history : List JobHistoryRow)
        (mid rds : String) (now dur : ℚ) (avail : List Nat)
        (res : Nat → List RawPoint),
        mr.status = RunStatus.processing → mr.started_at = none →
        env.resorts ≠ [] → env.extraction = .ok (avail, res) → avail ≠ [] →
        count_valid env mid avail res ≠ 0 →
        process_model_run env (some mr) history mid rds now dur
          = completed_after_reset env mr mid now dur stale_lock_no_start_msg
              avail res) := by
  have body_success : ∀ (env : WorkerEnv) (mr1 : ModelRunRow)
      (mid rds : String) (now dur : ℚ) (avail : List Nat)
      (res : Nat → List RawPoint),
      env.resorts ≠ [] → env.extraction = .ok (avail, res) → avail ≠ [] →
      count_valid env mid avail res ≠ 0 →
      claim_and_process env mid rds mr1 [mr1] now dur
        = (let run2 : ModelRunRow :=
            { mr1 with status := RunStatus.processing, started_at := some now }
           let run3 : ModelRunRow := { run2 with
             status := RunStatus.completed
             completed_at := some (now + dur)
             resorts_processed := some (count_valid env mid avail res) }
           { run := run3
             run_commits := [mr1, run2, run3]
             job := some { job_type := "model_run", model_id := mid,
                           status := "completed", started_at := some now,
                           completed_at := some (now + dur),
                           duration_seconds := some dur,
                           resorts_processed := some (count_valid env mid avail res) }
             upserts := (env.resorts.enum).flatMap
               (fun p => resort_upserts env.sqrtQ mid avail res p.1 p.2)
             result := .ok (count_valid env mid avail res) }) := by
    intro env mr1 mid rds now dur avail res hres hextr havail hvalid
    have hre : env.resorts.isEmpty = false := by
      simpa [List.isEmpty_iff] using hres
    have hae : avail.isEmpty = false := by
      simpa [List.isEmpty_iff] using havail
    simp only [claim_and_process, process_body, hre, Bool.false_eq_true,
      if_false, hextr, hae, if_neg hvalid]
    rfl
  refine ⟨?_, ?_, ?_, ?_, ?_⟩
  · intro history mid h
    simp [get_stale_timeout, h]
  · intro history mid h
    have hne : (staleDurations history mid).isEmpty = false := by
      cases he : staleDurations history mid with
      | nil => rw [he] at h; simp at h
      | cons d ds => simp
    simp only [get_stale_timeout, hne, Bool.false_eq_true, if_false, if_pos h]
  · intro env mr history mid rds now dur t hp hst hle
    have h1 : ¬mr.status = RunStatus.completed := by rw [hp]; simp
    simp only [process_model_run, Option.getD_some, if_neg h1, if_pos hp, hst,
      if_neg (not_lt.mpr hle)]
  · intro env mr history mid rds now dur t avail res hp hst hlt hres hextr
      havail hvalid
    have h1 : ¬mr.status = RunStatus.completed := by rw [hp]; simp
    simp only [process_model_run, Option.getD_some, if_neg h1, if_pos hp, hst,
      if_pos hlt]
    rw [body_success env _ mid rds now dur avail res hres hextr havail hvalid]
    simp [completed_after_reset, hst]
  · intro env mr history mid rds now dur avail res hp hst hres hextr
      havail hvalid
    have h1 : ¬mr.status = RunStatus.completed := by rw [hp]; simp
    simp only [process_model_run, Option.getD_some, if_neg h1, if_pos hp, hst]
    rw [body_success env _ mid rds now dur avail res hres hextr havail hvalid]
    simp [completed_after_reset, hst]

/-- C1 witness: with one completed 1500 s job the timeout is
`max(3000, 2500) = 3000`; a 100 s-old `processing` run is skipped untouched;
a 3000 s-stale run (no history, fallback 2500) is reset and reprocessed to
a completed run returning 1. -/
theorem C1_witness :
    get_stale_timeout [exampleJob] "gfs" = 3000
    ∧ process_model_run validDataEnv
        (some { status := .processing, started_at := some 900 }) [] "gfs"
        "2024-01-01T12:00" 1000 5
      = { run := { status := .processing, started_at := some 900 },
          run_commits := [], job := none, upserts := [], result := .ok 0 }
    ∧ process_model_run validDataEnv
        (some { status := .processing, started_at := some 0 }) [] "gfs"
        "2024-01-01T12:00" 3000 5
      = completed_after_reset validDataEnv
          { status := .processing, started_at := some 0 } "gfs" 3000 5
          (stale_lock_msg (3000 - 0)) [0]
          (fun _ => [{ temperature := some 263.15 }])
    ∧ (process_model_run validDataEnv
        (some { status := .processing, started_at := some 0 }) [] "gfs"
        "2024-01-01T12:00" 3000 5).result = .ok 1 := by
  have hds : staleDurations [exampleJob] "gfs" = [1500] := rfl
  have hto : get_stale_timeout [exampleJob] "gfs" = 3000 := by
    rw [C1_stale_lock.2.1 [exampleJob] "gfs" (by rw [hds]; norm_num)]
    rw [hds]
    norm_num [STALE_LOCK_FALLBACK]
  have hstale := C1_stale_lock.2.2.2.1 validDataEnv
    { status := .processing, started_at := some 0 } [] "gfs"
    "2024-01-01T12:00" 3000 5 0 [0] (fun _ => [{ temperature := some 263.15 }])
    rfl rfl
    (by norm_num [get_stale_timeout, staleDurations, STALE_LOCK_FALLBACK])
    (by simp [validDataEnv]) rfl (by simp) (by decide)
  refine ⟨hto, ?_, hstale, ?_⟩
  · exact C1_stale_lock.2.2.1 validDataEnv
      { status := .processing, started_at := some 900 } [] "gfs"
      "2024-01-01T12:00" 1000 5 900 rfl rfl
      (by norm_num [get_stale_timeout, staleDurations, STALE_LOCK_FALLBACK])
  · rw [hstale]
    rfl

/-- C7 (counterexample): the claim's sum-back property quantifies over
*every* null-free non-decreasing input, but `de_accumulate` clamps the first
output to `max(0, raw[0])`, so the single-element non-decreasing input
`[-1]` yields `[0]`, whose sum `0` is not the last input value `-1`. -/
theorem C7_counterexample :
    de_accumulate [some (-1 : ℚ)] = [some 0] ∧ ((0 : ℚ) ≠ -1) := by
  constructor
  · show [some (max 0 ((-1 : ℚ) - 0))] = [some 0]
    norm_num
  · norm_num

/-- C7 (amended): for every null-free input, `output[0] = max(0, raw[0])` and
`output[i] = max(0, raw[i] - raw[i-1])` for `i > 0`; every output entry is
non-negative and a negative raw increment yields exactly `0`; and for every
null-free non-decreasing input **whose first element is non-negative** the
outputs sum back to the last input value. -/
theorem C7_de_accumulate :
    (∀ (vs : List ℚ) (i : Nat), i < vs.length →
        (de_accumulate (vs.map some))[i]?
          = some (some (max 0 (vs.getD i 0 - (if i = 0 then 0 else vs.getD (i - 1) 0)))))
    ∧ (∀ (vs : List ℚ) (i : Nat) (x : ℚ),
        (de_accumulate (vs.map some))[i]? = some (some x) → 0 ≤ x)
    ∧ (∀ (vs : List ℚ) (i : Nat), i < vs.length → 0 < i →
        vs.getD i 0 < vs.getD (i - 1) 0 →
        (de_accumulate (vs.map some))[i]? = some (some 0))
    ∧ (∀ vs : List ℚ, vs ≠ [] → List.Chain' (· ≤ ·) vs → 0 ≤ vs.headI →
        ((de_accumulate (vs.map some)).filterMap id).sum = vs.getLastD 0) := by
  have part1 : ∀ (vs : List ℚ) (i : Nat), i < vs.length →
      (de_accumulate (vs.map some))[i]?
        = some (some (max 0 (vs.getD i 0 - (if i = 0 then 0 else vs.getD (i - 1) 0)))) := by
    intro vs i h
    rw [de_accumulate_map_some]
    exact zipWith_shift_getElem _ vs 0 i h
  refine ⟨part1, ?_, ?_, ?_⟩
  · intro vs i x hx
    by_cases h : i < vs.length
    · rw [part1 vs i h] at hx
      obtain rfl : max 0 (vs.getD i 0 - (if i = 0 then 0 else vs.getD (i - 1) 0)) = x := by
        injection hx with hx'
        injection hx'
      exact le_max_left _ _
    · rw [List.getElem?_eq_none (by rw [de_accumulate_length_map_some]; omega)] at hx
      exact absurd hx (by simp)
  · intro vs i hi hpos hlt
    rw [part1 vs i hi]
    have : max 0 (vs.getD i 0 - (if i = 0 then 0 else vs.getD (i - 1) 0)) = 0 := by
      rw [if_neg (Nat.pos_iff_ne_zero.mp hpos)]
      exact max_eq_left (by linarith)
    rw [this]
  · intro vs hne hchain hhead
    rw [de_accumulate_map_some, filterMap_id_zipWith_some]
    have hchain0 : List.Chain' (· ≤ ·) ((0 : ℚ) :: vs) := by
      rw [List.chain'_cons']
      refine ⟨?_, hchain⟩
      intro y hy
      obtain ⟨v, rest, rfl⟩ := List.exists_cons_of_ne_nil hne
      simp only [List.head?_cons, Option.mem_def, Option.some.injEq] at hy
      simpa [← hy] using hhead
    have := sum_clamped_diff vs 0 hchain0
    simpa using this

/-- C7 witness: concrete evaluations of the amended claim — increment at an
interior hour, clamped zero at a negative increment, and the telescoping sum
for a non-decreasing non-negative input. -/
theorem C7_witness :
    (de_accumulate ([1, 3, 2].map (some : ℚ → Option ℚ)))[1]? = some (some 2)
    ∧ (de_accumulate ([1, 3, 2].map (some : ℚ → Option ℚ)))[2]? = some (some 0)
    ∧ ((de_accumulate ([1, 2, 5].map (some : ℚ → Option ℚ))).filterMap id).sum = 5 := by
  refine ⟨?_, ?_, ?_⟩
  · have h := C7_de_accumulate.1 [1, 3, 2] 1 (by norm_num)
    norm_num at h
    exact h
  · exact C7_de_accumulate.2.2.1 [1, 3, 2] 2 (by norm_num) (by norm_num) (by norm_num)
  · have h := C7_de_accumulate.2.2.2 [1, 2, 5] (by simp)
      (by simp only [List.chain'_cons, List.chain'_singleton]; norm_num)
      (by norm_num)
    simpa using h

end SnowSpec

